import Mathlib

/-!
Verification development for the WindsurfSwitch extension.

The development shallowly embeds the core modules of the repository:
`databaseHelper.ts` (the key-value store engine over the sql.js ItemTable),
`accountSwitcher.ts` (the switch orchestrator), `machineIdReset.ts`
(identity generation and persistence) and `accountManager.ts` (account
cycling).  JavaScript strings are modelled as lists of characters, JS
values by the inductive `JSValue`, and the platform's `JSON.stringify` /
`JSON.parse` pair by an executable printer and recursive-descent
reader over character lists.  File I/O and external commands are
modelled as explicit oracle inputs; machine integers do not occur.
-/

namespace WindsurfSwitch

/-- Characters of a JavaScript string, modelled as a list of `Char`. -/
abbrev Str := List Char

/-- ASCII decimal digit test (the digits of the JSON number grammar). -/
def isDigit (c : Char) : Bool := 48 ≤ c.toNat && c.toNat ≤ 57

/-- JSON insignificant whitespace: space, tab, line feed, carriage return. -/
def isWs (c : Char) : Bool := c.toNat = 32 || c.toNat = 9 || c.toNat = 10 || c.toNat = 13

/-- Lowercase hexadecimal digit character for a value below 16
(as produced by Node's `digest('hex')` and by `JSON.stringify` escapes). -/
def hexDigit (n : Nat) : Char := if n < 10 then Char.ofNat (48 + n) else Char.ofNat (87 + n)

/-- Decimal digit character. -/
def digitChar (n : Nat) : Char := Char.ofNat (48 + n)

/-- Fuelled digit renderer behind `natDigits`. -/
def natDigitsAux : Nat → Nat → Str
  | 0, _ => []
  | fuel + 1, n =>
    if n < 10 then [digitChar n]
    else natDigitsAux fuel (n / 10) ++ [digitChar (n % 10)]

/-- Decimal digits of a natural number, most significant first: the
characters `String(n)` produces for a nonnegative JS integer.  The fuel
of `natDigitsAux` is ample, so the recursion always completes. -/
def natDigits (n : Nat) : Str := natDigitsAux (n + 1) n

/-- Numeric value of a string of decimal digit characters. -/
def digitsVal (ds : Str) : Nat := ds.foldl (fun a c => a * 10 + (c.toNat - 48)) 0

/-- Characters `String(n)` produces for a JS integer: decimal digits, `-`-prefixed when negative. -/
def intChars (n : Int) : Str :=
  if n < 0 then '-' :: natDigits (-n).toNat else natDigits n.toNat

/-- JavaScript values handled by the store engine's encode/decode
convention: `null` (JS `undefined` is identified with it — `writeToDB`
rejects both alike), booleans, integer numbers, strings, arrays, plain
objects (fields in insertion order) and byte sequences
(`Buffer`/`Uint8Array`, each element a byte value).  Non-integer JS
numbers (floating point) are outside the model. -/
inductive JSValue where
  | vnull : JSValue
  | vbool : Bool → JSValue
  | vnum : Int → JSValue
  | vstr : Str → JSValue
  | varr : List JSValue → JSValue
  | vobj : List (Str × JSValue) → JSValue
  | vbuf : List Nat → JSValue

mutual

/-- Structural equality test; the constructors nest `List`, for which no
deriving handler applies, so the recursion is spelt out mutually. -/
def beqJ : JSValue → JSValue → Bool
  | .vnull, .vnull => true
  | .vbool a, .vbool b => a == b
  | .vnum a, .vnum b => a == b
  | .vstr a, .vstr b => a == b
  | .varr a, .varr b => beqJItems a b
  | .vobj a, .vobj b => beqJMembers a b
  | .vbuf a, .vbuf b => a == b
  | _, _ => false
termination_by structural a => a

/-- Pointwise `beqJ` over array elements. -/
def beqJItems : List JSValue → List JSValue → Bool
  | [], [] => true
  | x :: xs, y :: ys => beqJ x y && beqJItems xs ys
  | _, _ => false
termination_by structural a => a

/-- Pointwise `beqJ` over object fields. -/
def beqJMembers : List (Str × JSValue) → List (Str × JSValue) → Bool
  | [], [] => true
  | (k, v) :: xs, (l, w) :: ys => k == l && beqJ v w && beqJMembers xs ys
  | _, _ => false
termination_by structural a => a

end

mutual

theorem beqJ_iff : ∀ a b : JSValue, beqJ a b = true ↔ a = b
  | .vnull, .vnull => by simp [beqJ]
  | .vbool _, .vbool _ => by simp [beqJ]
  | .vnum _, .vnum _ => by simp [beqJ]
  | .vstr _, .vstr _ => by simp [beqJ]
  | .varr a, .varr b => by simp [beqJ, beqJItems_iff a b]
  | .vobj a, .vobj b => by simp [beqJ, beqJMembers_iff a b]
  | .vbuf _, .vbuf _ => by simp [beqJ]
  | .vnull, .vbool _ | .vnull, .vnum _ | .vnull, .vstr _ | .vnull, .varr _
  | .vnull, .vobj _ | .vnull, .vbuf _
  | .vbool _, .vnull | .vbool _, .vnum _ | .vbool _, .vstr _ | .vbool _, .varr _
  | .vbool _, .vobj _ | .vbool _, .vbuf _
  | .vnum _, .vnull | .vnum _, .vbool _ | .vnum _, .vstr _ | .vnum _, .varr _
  | .vnum _, .vobj _ | .vnum _, .vbuf _
  | .vstr _, .vnull | .vstr _, .vbool _ | .vstr _, .vnum _ | .vstr _, .varr _
  | .vstr _, .vobj _ | .vstr _, .vbuf _
  | .varr _, .vnull | .varr _, .vbool _ | .varr _, .vnum _ | .varr _, .vstr _
  | .varr _, .vobj _ | .varr _, .vbuf _
  | .vobj _, .vnull | .vobj _, .vbool _ | .vobj _, .vnum _ | .vobj _, .vstr _
  | .vobj _, .varr _ | .vobj _, .vbuf _
  | .vbuf _, .vnull | .vbuf _, .vbool _ | .vbuf _, .vnum _ | .vbuf _, .vstr _
  | .vbuf _, .varr _ | .vbuf _, .vobj _ => by simp [beqJ]

theorem beqJItems_iff : ∀ xs ys : List JSValue, beqJItems xs ys = true ↔ xs = ys
  | [], [] => by simp [beqJItems]
  | x :: xs, y :: ys => by simp [beqJItems, beqJ_iff x y, beqJItems_iff xs ys]
  | [], _ :: _ => by simp [beqJItems]
  | _ :: _, [] => by simp [beqJItems]

theorem beqJMembers_iff : ∀ xs ys : List (Str × JSValue), beqJMembers xs ys = true ↔ xs = ys
  | [], [] => by simp [beqJMembers]
  | (k, v) :: xs, (l, w) :: ys => by
    simp [beqJMembers, beqJ_iff v w, beqJMembers_iff xs ys, and_assoc, Prod.ext_iff]
  | [], _ :: _ => by simp [beqJMembers]
  | _ :: _, [] => by simp [beqJMembers]

end

instance : DecidableEq JSValue := fun a b => decidable_of_iff _ (beqJ_iff a b)

/-- Escaping of one string character as `JSON.stringify` performs it: quote, backslash
and the shortcut control escapes, `\u00XX` for other control characters,
and every other character unchanged. -/
def escChar (c : Char) : Str :=
  if c = '"' then ['\\', '"']
  else if c = '\\' then ['\\', '\\']
  else if c.toNat = 8 then ['\\', 'b']
  else if c.toNat = 9 then ['\\', 't']
  else if c.toNat = 10 then ['\\', 'n']
  else if c.toNat = 12 then ['\\', 'f']
  else if c.toNat = 13 then ['\\', 'r']
  else if c.toNat < 32 then ['\\', 'u', '0', '0', hexDigit (c.toNat / 16), hexDigit (c.toNat % 16)]
  else [c]

/-- Escaping of a whole string body as `JSON.stringify` performs it. -/
def escStr : Str → Str
  | [] => []
  | c :: cs => escChar c ++ escStr cs

/-- Comma-separated decimal rendering of the elements of a byte array,
as `JSON.stringify` renders the `data` field of a serialized `Buffer`. -/
def printNumItems : List Nat → Str
  | [] => []
  | [b] => natDigits b
  | b :: b2 :: bs => natDigits b ++ ',' :: printNumItems (b2 :: bs)

/-- Rendering `JSON.stringify` gives an array of byte values. -/
def printNumArr (bs : List Nat) : Str := '[' :: printNumItems bs ++ [']']

mutual

/-- The characters `JSON.stringify` produces for a value (no indent
argument, hence no whitespace).  A nested `Buffer`/`Uint8Array` is
serialized through `Buffer.prototype.toJSON` as the tagged object
`{"type":"Buffer","data":[…]}`.  -/
def printJson : JSValue → Str
  | .vnull => ['n', 'u', 'l', 'l']
  | .vbool true => ['t', 'r', 'u', 'e']
  | .vbool false => ['f', 'a', 'l', 's', 'e']
  | .vnum n => intChars n
  | .vstr s => '"' :: escStr s ++ ['"']
  | .varr xs => '[' :: printItems xs ++ [']']
  | .vobj kvs => '\x7b' :: printMembers kvs ++ ['\x7d']
  | .vbuf bs =>
      '\x7b' :: '"' :: 't' :: 'y' :: 'p' :: 'e' :: '"' :: ':' ::
      '"' :: 'B' :: 'u' :: 'f' :: 'f' :: 'e' :: 'r' :: '"' :: ',' ::
      '"' :: 'd' :: 'a' :: 't' :: 'a' :: '"' :: ':' ::
      printNumArr bs ++ ['\x7d']
termination_by structural v => v

/-- Comma-separated renderings of the elements of an array. -/
def printItems : List JSValue → Str
  | [] => []
  | [x] => printJson x
  | x :: y :: xs => printJson x ++ ',' :: printItems (y :: xs)
termination_by structural xs => xs

/-- Comma-separated renderings of the fields of an object. -/
def printMembers : List (Str × JSValue) → Str
  | [] => []
  | [(k, v)] => '"' :: escStr k ++ '"' :: ':' :: printJson v
  | (k, v) :: m :: kvs =>
      ('"' :: escStr k ++ '"' :: ':' :: printJson v) ++ ',' :: printMembers (m :: kvs)
termination_by structural kvs => kvs

end

mutual

/-- Holds (`true`) when no `Buffer`/`Uint8Array` occurs anywhere in the value. -/
def bufFree : JSValue → Bool
  | .vbuf _ => false
  | .varr xs => bufFreeItems xs
  | .vobj kvs => bufFreeMembers kvs
  | _ => true
termination_by structural v => v

/-- Conjunction of `bufFree` over the elements of an array. -/
def bufFreeItems : List JSValue → Bool
  | [] => true
  | x :: xs => bufFree x && bufFreeItems xs
termination_by structural xs => xs

/-- Conjunction of `bufFree` over the field values of an object. -/
def bufFreeMembers : List (Str × JSValue) → Bool
  | [] => true
  | (_, v) :: kvs => bufFree v && bufFreeMembers kvs
termination_by structural kvs => kvs

end

/-- Drop leading JSON whitespace. -/
def skipWs : Str → Str
  | [] => []
  | c :: cs => if isWs c then skipWs cs else c :: cs

/-- Hexadecimal digit test (either case), for `\u` escapes. -/
def isHexDigit (c : Char) : Bool :=
  (48 ≤ c.toNat && c.toNat ≤ 57) || (65 ≤ c.toNat && c.toNat ≤ 70) ||
  (97 ≤ c.toNat && c.toNat ≤ 102)

/-- Numeric value of a hexadecimal digit character. -/
def hexVal (c : Char) : Nat :=
  if c.toNat ≤ 57 then c.toNat - 48
  else if c.toNat ≤ 70 then c.toNat - 55
  else c.toNat - 87

/-- Character denoted by a single-letter escape inside a JSON string. -/
def decodeSimpleEsc (e : Char) : Option Char :=
  if e = '"' then some '"'
  else if e = '\\' then some '\\'
  else if e = '/' then some '/'
  else if e = 'b' then some (Char.ofNat 8)
  else if e = 'f' then some (Char.ofNat 12)
  else if e = 'n' then some (Char.ofNat 10)
  else if e = 'r' then some (Char.ofNat 13)
  else if e = 't' then some (Char.ofNat 9)
  else none

/-- Read a JSON string body (the opening quote already consumed):
plain characters up to the closing quote, with backslash escapes
(single-letter shortcuts and `\uXXXX`). -/
def parseStr : Str → Option (Str × Str)
  | [] => none
  | c :: rest =>
    if c = '"' then some ([], rest)
    else if c = '\\' then
      match rest with
      | [] => none
      | 'u' :: h1 :: h2 :: h3 :: h4 :: rest2 =>
        if isHexDigit h1 && isHexDigit h2 && isHexDigit h3 && isHexDigit h4 then
          (parseStr rest2).map (fun p =>
            (Char.ofNat (((hexVal h1 * 16 + hexVal h2) * 16 + hexVal h3) * 16 + hexVal h4)
              :: p.1, p.2))
        else none
      | e :: rest2 =>
        match decodeSimpleEsc e with
        | some d => (parseStr rest2).map (fun p => (d :: p.1, p.2))
        | none => none
    else (parseStr rest).map (fun p => (c :: p.1, p.2))

/-- Read an unsigned JSON integer: a nonempty run of digits with no
leading zero (except `0` itself). -/
def parseNatNum (cs : Str) : Option (Nat × Str) :=
  let ds := cs.takeWhile isDigit
  if ds = [] then none
  else if ds.length > 1 && ds.head? = some '0' then none
  else some (digitsVal ds, cs.dropWhile isDigit)

/-- Read a JSON integer number, with optional leading minus. -/
def parseNum (cs : Str) : Option (JSValue × Str) :=
  match cs with
  | [] => none
  | c :: rest =>
    if c = '-' then (parseNatNum rest).map (fun p => (JSValue.vnum (-(p.1 : Int)), p.2))
    else (parseNatNum (c :: rest)).map (fun p => (JSValue.vnum (p.1 : Int), p.2))

mutual

/-- Fuelled recursive-descent reader for one JSON value, modelling
`JSON.parse` (restricted to integer numeric literals; a fractional or
exponent part is left unconsumed and so makes the surrounding document
unreadable, as floating point is outside the model). -/
def parseVal : Nat → Str → Option (JSValue × Str)
  | 0, _ => none
  | fuel + 1, cs =>
    match skipWs cs with
    | [] => none
    | c :: rest =>
      if c = 'n' then
        match rest with
        | 'u' :: 'l' :: 'l' :: r => some (.vnull, r)
        | _ => none
      else if c = 't' then
        match rest with
        | 'r' :: 'u' :: 'e' :: r => some (.vbool true, r)
        | _ => none
      else if c = 'f' then
        match rest with
        | 'a' :: 'l' :: 's' :: 'e' :: r => some (.vbool false, r)
        | _ => none
      else if c = '"' then (parseStr rest).map (fun p => (.vstr p.1, p.2))
      else if c = '[' then
        match skipWs rest with
        | [] => none
        | c2 :: rest2 =>
          if c2 = ']' then some (.varr [], rest2)
          else (parseItems fuel (c2 :: rest2)).map (fun p => (.varr p.1, p.2))
      else if c = '\x7b' then
        match skipWs rest with
        | [] => none
        | c2 :: rest2 =>
          if c2 = '\x7d' then some (.vobj [], rest2)
          else (parseMembers fuel (c2 :: rest2)).map (fun p => (.vobj p.1, p.2))
      else if c = '-' || isDigit c then parseNum (c :: rest)
      else none

/-- Read the comma-separated elements of a nonempty array, together
with the closing bracket. -/
def parseItems : Nat → Str → Option (List JSValue × Str)
  | 0, _ => none
  | fuel + 1, cs =>
    match parseVal fuel cs with
    | none => none
    | some (v, r) =>
      match skipWs r with
      | ',' :: r2 => (parseItems fuel r2).map (fun p => (v :: p.1, p.2))
      | ']' :: r2 => some ([v], r2)
      | _ => none

/-- Read the comma-separated fields of a nonempty object, together
with the closing brace. -/
def parseMembers : Nat → Str → Option (List (Str × JSValue) × Str)
  | 0, _ => none
  | fuel + 1, cs =>
    match skipWs cs with
    | '"' :: rest =>
      match parseStr rest with
      | none => none
      | some (k, r) =>
        match skipWs r with
        | ':' :: r2 =>
          match parseVal fuel r2 with
          | none => none
          | some (v, r3) =>
            match skipWs r3 with
            | ',' :: r4 => (parseMembers fuel r4).map (fun p => ((k, v) :: p.1, p.2))
            | '\x7d' :: r4 => some ([(k, v)], r4)
            | _ => none
        | _ => none
    | _ => none

end

/-- Whole-document `JSON.parse`: read one value with ample fuel
and require that only whitespace remains. -/
def jsonParse (cs : Str) : Option JSValue :=
  match parseVal (2 * cs.length + 2) cs with
  | some (v, rest) => if skipWs rest = [] then some v else none
  | none => none

mutual

/-- Fuel sufficient for `parseVal` to read the rendering of a value. -/
def needF : JSValue → Nat
  | .varr xs => 1 + needItems xs
  | .vobj kvs => 1 + needMembers kvs
  | _ => 1
termination_by structural v => v

/-- Fuel sufficient for `parseItems` on the renderings of these elements. -/
def needItems : List JSValue → Nat
  | [] => 0
  | x :: xs => 1 + needF x + needItems xs
termination_by structural xs => xs

/-- Fuel sufficient for `parseMembers` on the renderings of these fields. -/
def needMembers : List (Str × JSValue) → Nat
  | [] => 0
  | (_, v) :: kvs => 1 + needF v + needMembers kvs
termination_by structural kvs => kvs

end

/-! ## The key-value store engine (`databaseHelper.ts`) -/

/-- The row set of the sql.js `ItemTable`: `(key, value)` pairs with
textual values, in table order. -/
abbrev Database := List (Str × Str)

/-- Row query `SELECT value FROM ItemTable WHERE key = ?`: the first row bearing
the key. -/
def lookupDB (db : Database) (k : Str) : Option Str :=
  (db.find? (fun kv => kv.1 == k)).map (fun kv => kv.2)

/-- Upsert `INSERT OR REPLACE INTO ItemTable` keyed by `key`: any existing row
with the key is replaced by the new row. -/
def upsert (db : Database) (k v : Str) : Database :=
  db.filter (fun kv => !(kv.1 == k)) ++ [(k, v)]

/-- Errors `writeToDB` signals: the explicit null/undefined rejection
(carrying the offending key) and I/O failure during image load or the
final file write. -/
inductive DBError where
  | invalidValue : Str → DBError
  | ioError : String → DBError
deriving DecidableEq

/-- I/O conditions of one engine call: whether reading and parsing the
database image succeeds, and whether the final file write succeeds. -/
structure DBEnv where
  loadOk : Bool
  writeOk : Bool
deriving DecidableEq

/-- The textual encoding `writeToDB` applies before storing: a
`Buffer`/`Uint8Array` becomes the tagged JSON object
`{type:'Buffer',data:[…]}`, any other object or array goes through
`JSON.stringify` (JS `typeof` calls arrays objects), and every other
value through `String(value)`. -/
def encodeValue : JSValue → Str
  | .vbuf bs => printJson (.vbuf bs)
  | .vobj kvs => printJson (.vobj kvs)
  | .varr xs => printJson (.varr xs)
  | .vnull => ['n', 'u', 'l', 'l']
  | .vstr s => s
  | .vnum n => intChars n
  | .vbool true => ['t', 'r', 'u', 'e']
  | .vbool false => ['f', 'a', 'l', 's', 'e']

/-- The best-effort decoding `readFromDB` applies to a stored text:
the `JSON.parse` of the text when that succeeds, the raw text
otherwise. -/
def decodeValue (s : Str) : JSValue :=
  match jsonParse s with
  | some v => v
  | none => .vstr s

/-- Model of `DatabaseHelper.writeToDB`: reject null/undefined, load the image,
upsert the encoded row, export and overwrite the file; load and write
failures are rethrown to the caller. -/
def writeToDB (env : DBEnv) (db : Database) (key : Str) (v : JSValue) :
    Except DBError Database :=
  if v = .vnull then .error (.invalidValue key)
  else if !env.loadOk then .error (.ioError "load")
  else if !env.writeOk then .error (.ioError "write")
  else .ok (upsert db key (encodeValue v))

/-- Model of `DatabaseHelper.readFromDB`: best-effort read; any failure and a
missing row alike yield `none`. -/
def readFromDB (loadOk : Bool) (db : Database) (key : Str) : Option JSValue :=
  if !loadOk then none
  else
    match lookupDB db key with
    | none => none
    | some s => some (decodeValue s)

/-- ASCII lowercase folding, the case SQLite's default `LIKE` ignores. -/
def lowerAscii (c : Char) : Char :=
  if 65 ≤ c.toNat ∧ c.toNat ≤ 90 then Char.ofNat (c.toNat + 32) else c

/-- SQLite `LIKE` comparison of one pattern character with one subject
character: ASCII-case-insensitive equality. -/
def likeEqChar (p c : Char) : Bool := lowerAscii p == lowerAscii c

/-- Fuelled engine behind `likeMatch`; every step consumes a pattern or
subject character, so the fuel `likeMatch` passes always suffices. -/
def likeMatchAux : Nat → Str → Str → Bool
  | 0, _, _ => false
  | fuel + 1, p, s =>
    match p, s with
    | [], [] => true
    | [], _ :: _ => false
    | '%' :: ps, [] => likeMatchAux fuel ps []
    | '%' :: ps, c :: s2 =>
      likeMatchAux fuel ps (c :: s2) || likeMatchAux fuel ('%' :: ps) s2
    | '_' :: ps, _ :: s2 => likeMatchAux fuel ps s2
    | p1 :: ps, c :: s2 => likeEqChar p1 c && likeMatchAux fuel ps s2
    | _ :: _, [] => false

/-- SQLite `LIKE` pattern matching: `%` matches any run of characters,
`_` any single character, and plain characters compare
case-insensitively over ASCII. -/
def likeMatch (p s : Str) : Bool := likeMatchAux (p.length + s.length + 1) p s

/-- Model of `DatabaseHelper.deleteByPattern`: query the keys matching the
pattern, delete each, write the image back once, and report how many
rows went; a load or write failure is caught and yields count `0` with
the on-disk table unchanged. -/
def deleteByPattern (env : DBEnv) (db : Database) (pattern : Str) : Database × Nat :=
  if !env.loadOk then (db, 0)
  else
    let matched := db.filter (fun kv => likeMatch pattern kv.1)
    let db2 := db.filter (fun kv => !likeMatch pattern kv.1)
    if !env.writeOk then (db, 0)
    else (db2, matched.length)

/-! ## Machine-identity generation and persistence (`machineIdReset.ts`) -/

/-- The five generated device identifiers. -/
structure MachineIds where
  machineId : Str
  macMachineId : Str
  sqmId : Str
  devDeviceId : Str
  serviceMachineId : Str
deriving DecidableEq

/-- Lowercase hex rendering of a byte list, two characters a byte, as
Node's `digest('hex')` renders digests. -/
def hexChars : List Nat → Str
  | [] => []
  | b :: bs => hexDigit (b / 16) :: hexDigit (b % 16) :: hexChars bs

/-- The sixteen random bytes one `uuidv4()` call consumes. -/
structure UuidBytes where
  b0 : Nat
  b1 : Nat
  b2 : Nat
  b3 : Nat
  b4 : Nat
  b5 : Nat
  b6 : Nat
  b7 : Nat
  b8 : Nat
  b9 : Nat
  b10 : Nat
  b11 : Nat
  b12 : Nat
  b13 : Nat
  b14 : Nat
  b15 : Nat
deriving DecidableEq

/-- All sixteen bytes are byte values. -/
def uuidBytesOk (u : UuidBytes) : Prop :=
  u.b0 < 256 ∧ u.b1 < 256 ∧ u.b2 < 256 ∧ u.b3 < 256 ∧ u.b4 < 256 ∧ u.b5 < 256 ∧
  u.b6 < 256 ∧ u.b7 < 256 ∧ u.b8 < 256 ∧ u.b9 < 256 ∧ u.b10 < 256 ∧ u.b11 < 256 ∧
  u.b12 < 256 ∧ u.b13 < 256 ∧ u.b14 < 256 ∧ u.b15 < 256

instance (u : UuidBytes) : Decidable (uuidBytesOk u) := by
  unfold uuidBytesOk; infer_instance

/-- Text of `uuidv4()` from its random bytes: 8-4-4-4-12 lowercase hex
groups, with the version nibble forced to `4` in byte 6 and the variant
bits forced to `10` in byte 8. -/
def uuidFrom (u : UuidBytes) : Str :=
  hexChars [u.b0, u.b1, u.b2, u.b3] ++ '-' ::
  (hexChars [u.b4, u.b5] ++ '-' ::
  (hexChars [64 + u.b6 % 16, u.b7] ++ '-' ::
  (hexChars [128 + u.b8 % 64, u.b9] ++ '-' ::
  hexChars [u.b10, u.b11, u.b12, u.b13, u.b14, u.b15])))

/-- ASCII uppercase folding, as `toUpperCase` acts on the hex/dash
characters of a UUID. -/
def toUpperAscii (c : Char) : Char :=
  if 97 ≤ c.toNat ∧ c.toNat ≤ 122 then Char.ofNat (c.toNat - 32) else c

/-- Outputs of the crypto sources consumed by one `generateMachineIds`
call: the sha256/sha512 digest bytes of the fresh random input, and the
random bytes behind the three `uuidv4()` calls. -/
structure RandomInputs where
  d256 : List Nat
  d512 : List Nat
  u1 : UuidBytes
  u2 : UuidBytes
  u3 : UuidBytes

/-- Model of `MachineIdResetter.generateMachineIds` over the random oracle:
hex-encoded digests, a brace-wrapped uppercased UUID, and two plain
UUIDs. -/
def generateMachineIds (r : RandomInputs) : MachineIds where
  machineId := hexChars r.d256
  macMachineId := hexChars r.d512
  sqmId := '\x7b' :: (uuidFrom r.u1).map toUpperAscii ++ ['\x7d']
  devDeviceId := uuidFrom r.u2
  serviceMachineId := uuidFrom r.u3

/-- The side JSON document (`storage.json`): fields in insertion order. -/
abbrev Doc := List (Str × JSValue)

/-- JS object property assignment on the parsed document: replace the
value of an existing key in place, append a new key at the end. -/
def setKey : Doc → Str → JSValue → Doc
  | [], k, v => [(k, v)]
  | (k2, v2) :: doc, k, v =>
    if k2 = k then (k, v) :: doc else (k2, v2) :: setKey doc k v

/-- First-match field lookup in the document. -/
def lookupDoc (doc : Doc) (k : Str) : Option JSValue :=
  (doc.find? (fun kv => kv.1 == k)).map (fun kv => kv.2)

/-- The retry loop of `resetMachineId`, recursing over the remaining
attempts: before attempt `i` (for `i > 0`) sleep `500·(i+1)` ms, then
try the write; a success clears `lastError` and breaks.  Returns the
final `lastError`, the number of attempts performed, and the list of
delays slept. -/
def retryAux (att : Nat → Except String Unit) : Nat → Nat → Option String →
    Option String × Nat × List Nat
  | 0, _, last => (last, 0, [])
  | r + 1, i, _ =>
    let ds : List Nat := if i > 0 then [500 * (i + 1)] else []
    match att i with
    | .ok _ => (none, 1, ds)
    | .error e =>
      let rec2 := retryAux att r (i + 1) (some e)
      (rec2.1, rec2.2.1 + 1, ds ++ rec2.2.2)

/-- The bounded write retry of `resetMachineId`: `maxRetries = 3`. -/
def retryWrite (att : Nat → Except String Unit) : Option String × Nat × List Nat :=
  retryAux att 3 0 none

/-- Model of `MachineIdResetter.resetMachineId` over oracles: generate fresh ids,
read the side document (`none` models "absent or unparsable", tolerated
by starting from the empty document), set the three always-present
telemetry fields plus the macOS-only one, and write back with bounded
retry; if the retries all fail, the last error is rethrown wrapped in a
reset-failure message.  Returns the ids and the document written. -/
def resetMachineId (r : RandomInputs) (darwin : Bool) (readDoc : Option Doc)
    (att : Nat → Except String Unit) : Except String (MachineIds × Doc) :=
  let ids := generateMachineIds r
  let doc0 := readDoc.getD []
  let doc1 := setKey doc0 "telemetry.machineId".data (.vstr ids.machineId)
  let doc2 := setKey doc1 "telemetry.sqmId".data (.vstr ids.sqmId)
  let doc3 := setKey doc2 "telemetry.devDeviceId".data (.vstr ids.devDeviceId)
  let doc4 :=
    if darwin then setKey doc3 "telemetry.macMachineId".data (.vstr ids.macMachineId)
    else doc3
  match (retryWrite att).1 with
  | none => .ok (ids, doc4)
  | some e => .error ("重置机器 ID 失败: " ++ e)

/-! ## Account management (`accountManager.ts`) -/

/-- One saved credential profile. -/
structure Account where
  id : String
  email : String
  name : String
  apiKey : String
  apiServerUrl : String
  refreshToken : String
  planName : String
  createdAt : String
  updatedAt : String
deriving DecidableEq

/-- The manager's persisted state: the stored account list (as
`getAccounts` returns it) and the stored current index (`globalState`
holds a number; the key defaults to 0 when unset, and the manager only
ever stores indices it computed, hence a natural number). -/
structure ManagerState where
  accounts : List Account
  currentIndex : Nat
deriving DecidableEq

/-- Model of `AccountManager.getNextAccount`: cyclic successor of the current
index; `(null, -1)` on an empty list.  The method only reads the stored
index, so the state comes back unchanged. -/
def getNextAccount (st : ManagerState) : (Option Account × Int) × ManagerState :=
  if st.accounts.isEmpty then ((none, -1), st)
  else
    let nextIndex := (st.currentIndex + 1) % st.accounts.length
    ((st.accounts[nextIndex]?, (nextIndex : Int)), st)

/-! ## The switch orchestrator (`accountSwitcher.ts`) -/

/-- Result of `WindsurfPatchService.checkAndApplyPatch`. -/
structure PatchResult where
  needsRestart : Bool
  error : Option String
deriving DecidableEq

/-- The orchestrator's return contract. Fields the source's object
literals omit are `none` (JS `undefined`). -/
structure SwitchOutcome where
  success : Bool
  error : Option String
  needsRestart : Option Bool
deriving DecidableEq

/-- Which steps a `switchAccount` run entered: whether the logout,
machine-id reset and session-injection commands were invoked, how many
store writes were attempted, and whether a deferred window reload was
scheduled. -/
structure SwitchEffects where
  logoutAttempted : Bool
  resetAttempted : Bool
  injectAttempted : Bool
  writesAttempted : Nat
  reloadScheduled : Bool
deriving DecidableEq

/-- Outcomes of the external collaborators and of the store writes
consumed by one `switchAccount` run; `writes n` is the outcome of the
`n`-th `DatabaseHelper.writeToDB` call. -/
structure SwitchEnv where
  patch : Except String PatchResult
  logout : Except String Unit
  reset : Except String Unit
  inject : Except String Unit
  writes : Nat → Except String Unit

/-- Model of `AccountSwitcher.writeAuthData`: three sequential store writes
(the `windsurfAuthStatus` snapshot, the `codeium.windsurf` config
bundle, the bare display name), consuming write outcomes `start`,
`start+1`, `start+2`; the first failure aborts the rest.  Returns the
result and the next write index. -/
def writeAuthData (w : Nat → Except String Unit) (start : Nat) :
    Except String Unit × Nat :=
  match w start with
  | .error e => (.error e, start + 1)
  | .ok _ =>
    match w (start + 1) with
    | .error e => (.error e, start + 2)
    | .ok _ =>
      match w (start + 2) with
      | .error e => (.error e, start + 3)
      | .ok _ => (.ok (), start + 3)

/-- Model of `AccountSwitcher.switchAccount`: patch check (fatal, with the
needs-restart early return), best-effort logout and machine-id reset,
session injection, and the store write — inside the injection `try` on
success, or as the fallback (with a deferred reload) in its `catch`; a
throw escaping those lands in the outer catch as `{success:false}`. -/
def switchAccount (env : SwitchEnv) : SwitchOutcome × SwitchEffects :=
  match env.patch with
  | .error e =>
    ({ success := false, error := some e, needsRestart := none },
     { logoutAttempted := false, resetAttempted := false, injectAttempted := false,
       writesAttempted := 0, reloadScheduled := false })
  | .ok patchResult =>
    if patchResult.needsRestart then
      ({ success := false, error := some "补丁已应用，正在重启", needsRestart := some true },
       { logoutAttempted := false, resetAttempted := false, injectAttempted := false,
         writesAttempted := 0, reloadScheduled := true })
    else
      match patchResult.error with
      | some e =>
        ({ success := false, error := some e, needsRestart := none },
         { logoutAttempted := false, resetAttempted := false, injectAttempted := false,
           writesAttempted := 0, reloadScheduled := false })
      | none =>
        match env.inject with
        | .ok _ =>
          match writeAuthData env.writes 0 with
          | (.ok _, n) =>
            ({ success := true, error := none, needsRestart := none },
             { logoutAttempted := true, resetAttempted := true, injectAttempted := true,
               writesAttempted := n, reloadScheduled := false })
          | (.error _, n) =>
            match writeAuthData env.writes n with
            | (.ok _, n2) =>
              ({ success := true, error := none, needsRestart := none },
               { logoutAttempted := true, resetAttempted := true, injectAttempted := true,
                 writesAttempted := n2, reloadScheduled := true })
            | (.error e2, n2) =>
              ({ success := false, error := some e2, needsRestart := none },
               { logoutAttempted := true, resetAttempted := true, injectAttempted := true,
                 writesAttempted := n2, reloadScheduled := false })
        | .error _ =>
          match writeAuthData env.writes 0 with
          | (.ok _, n) =>
            ({ success := true, error := none, needsRestart := none },
             { logoutAttempted := true, resetAttempted := true, injectAttempted := true,
               writesAttempted := n, reloadScheduled := true })
          | (.error e, n) =>
            ({ success := false, error := some e, needsRestart := none },
             { logoutAttempted := true, resetAttempted := true, injectAttempted := true,
               writesAttempted := n, reloadScheduled := false })

/-- A continuation a printed value may be followed by without changing
how it reads back: empty, or starting with a non-digit (a digit would
glue onto a preceding number). -/
def goodFollow : Str → Bool
  | [] => true
  | c :: _ => !isDigit c

/-- The tagged object a `Buffer` of bytes `bs` decodes to after the
store round-trip: `{type:'Buffer',data:bs}`. -/
def bufTag (bs : List Nat) : JSValue :=
  .vobj [(['t', 'y', 'p', 'e'], .vstr ['B', 'u', 'f', 'f', 'e', 'r']),
         (['d', 'a', 't', 'a'], .varr (bs.map (fun b => JSValue.vnum (Int.ofNat b))))]

/-- Lowercase hexadecimal alphabet membership. -/
def isHexLower (c : Char) : Bool :=
  (48 ≤ c.toNat && c.toNat ≤ 57) || (97 ≤ c.toNat && c.toNat ≤ 102)

/-- Uppercase hexadecimal alphabet membership. -/
def isHexUpper (c : Char) : Bool :=
  (48 ≤ c.toNat && c.toNat ≤ 57) || (65 ≤ c.toNat && c.toNat ≤ 70)

/-- UUID-form text: five dash-separated groups of 8, 4, 4, 4 and 12
lowercase hex characters. -/
def UuidForm (s : Str) : Prop :=
  ∃ g1 g2 g3 g4 g5 : Str,
    s = g1 ++ '-' :: (g2 ++ '-' :: (g3 ++ '-' :: (g4 ++ '-' :: g5))) ∧
    g1.length = 8 ∧ g2.length = 4 ∧ g3.length = 4 ∧ g4.length = 4 ∧ g5.length = 12 ∧
    ∀ c ∈ g1 ++ g2 ++ g3 ++ g4 ++ g5, isHexLower c = true

/-- UUID-form text in uppercase hex. -/
def UuidFormUpper (s : Str) : Prop :=
  ∃ g1 g2 g3 g4 g5 : Str,
    s = g1 ++ '-' :: (g2 ++ '-' :: (g3 ++ '-' :: (g4 ++ '-' :: g5))) ∧
    g1.length = 8 ∧ g2.length = 4 ∧ g3.length = 4 ∧ g4.length = 4 ∧ g5.length = 12 ∧
    ∀ c ∈ g1 ++ g2 ++ g3 ++ g4 ++ g5, isHexUpper c = true

/-! ## Character and digit lemmas -/

theorem char_toNat_ofNat_valid (n : Nat) (h : n.isValidChar) : (Char.ofNat n).toNat = n := by
  unfold Char.ofNat
  rw [dif_pos h]
  simp [Char.ofNatAux, Char.toNat, UInt32.toNat, BitVec.toNat_ofNatLt]

theorem char_ofNat_toNat (c : Char) : Char.ofNat c.toNat = c := by
  have h : c.toNat.isValidChar := c.valid
  unfold Char.ofNat
  rw [dif_pos h]
  apply Char.eq_of_val_eq
  apply UInt32.eq_of_toBitVec_eq
  apply BitVec.eq_of_toNat_eq
  simp [Char.ofNatAux, Char.toNat, UInt32.toNat, BitVec.toNat_ofNatLt]

theorem digitChar_toNat (n : Nat) (h : n < 10) : (digitChar n).toNat = 48 + n :=
  char_toNat_ofNat_valid _ (Or.inl (by omega))

theorem isDigit_digitChar (n : Nat) (h : n < 10) : isDigit (digitChar n) = true := by
  simp [isDigit, digitChar_toNat n h]
  omega

theorem natDigitsAux_congr : ∀ f1 f2 n, n < f1 → n < f2 →
    natDigitsAux f1 n = natDigitsAux f2 n := by
  intro f1
  induction f1 with
  | zero => omega
  | succ g ih =>
    intro f2 n h1 h2
    cases f2 with
    | zero => omega
    | succ g2 =>
      simp only [natDigitsAux]
      by_cases h : n < 10
      · simp [h]
      · simp only [h, if_false]
        have hdiv : n / 10 < n := Nat.div_lt_self (by omega) (by omega)
        rw [ih g2 (n / 10) (by omega) (by omega)]

theorem natDigits_eq (n : Nat) :
    natDigits n =
      if n < 10 then [digitChar n] else natDigits (n / 10) ++ [digitChar (n % 10)] := by
  unfold natDigits
  conv_lhs => rw [natDigitsAux]
  by_cases h : n < 10
  · simp [h]
  · simp only [h, if_false]
    have hdiv : n / 10 < n := Nat.div_lt_self (by omega) (by omega)
    rw [natDigitsAux_congr n (n / 10 + 1) (n / 10) (by omega) (by omega)]

theorem natDigits_ne_nil (n : Nat) : natDigits n ≠ [] := by
  rw [natDigits_eq]
  split <;> simp

theorem natDigits_all_digit : ∀ n, ∀ c ∈ natDigits n, isDigit c = true := by
  intro n
  induction n using Nat.strong_induction_on with
  | _ n ih =>
    rw [natDigits_eq]
    split
    · intro c hc
      simp at hc
      subst hc
      exact isDigit_digitChar n (by omega)
    · intro c hc
      rcases List.mem_append.mp hc with h | h
      · exact ih (n / 10) (Nat.div_lt_self (by omega) (by omega)) c h
      · simp at h
        subst h
        exact isDigit_digitChar _ (Nat.mod_lt _ (by omega))

theorem natDigits_head_ne_zero : ∀ n, 0 < n → ∀ c cs, natDigits n = c :: cs → c ≠ '0' := by
  intro n
  induction n using Nat.strong_induction_on with
  | _ n ih =>
    intro hn c cs hEq
    rw [natDigits_eq] at hEq
    split at hEq
    · simp at hEq
      intro hc
      have := digitChar_toNat n (by omega)
      rw [hEq.1, hc] at this
      simp at this
      omega
    · rcases hh : natDigits (n / 10) with _ | ⟨c2, cs2⟩
      · exact absurd hh (natDigits_ne_nil _)
      · rw [hh] at hEq
        simp at hEq
        rw [← hEq.1]
        exact ih (n / 10) (Nat.div_lt_self (by omega) (by omega))
          (Nat.div_pos (by omega) (by omega)) c2 cs2 hh

theorem digitsVal_append_one (ds : Str) (c : Char) :
    digitsVal (ds ++ [c]) = digitsVal ds * 10 + (c.toNat - 48) := by
  simp [digitsVal, List.foldl_append]

theorem digitsVal_natDigits : ∀ n, digitsVal (natDigits n) = n := by
  intro n
  induction n using Nat.strong_induction_on with
  | _ n ih =>
    rw [natDigits_eq]
    split
    · simp [digitsVal, digitChar_toNat n (by omega)]
    · rw [digitsVal_append_one, ih (n / 10) (Nat.div_lt_self (by omega) (by omega)),
        digitChar_toNat _ (Nat.mod_lt _ (by omega))]
      omega

/-! ## Number reading -/

theorem takeWhile_append_all (p : Char → Bool) :
    ∀ ds rest, (∀ c ∈ ds, p c = true) → (∀ c cs, rest = c :: cs → p c = false) →
      (ds ++ rest).takeWhile p = ds ∧ (ds ++ rest).dropWhile p = rest := by
  intro ds
  induction ds with
  | nil =>
    intro rest _ h2
    cases rest with
    | nil => simp
    | cons c cs => simp [List.takeWhile_cons, List.dropWhile_cons, h2 c cs rfl]
  | cons d ds ih =>
    intro rest h1 h2
    have hd : p d = true := h1 d (by simp)
    have := ih rest (fun c hc => h1 c (by simp [hc])) h2
    simp [List.takeWhile_cons, List.dropWhile_cons, hd, this.1, this.2]

theorem parseNatNum_natDigits (n : Nat) (rest : Str)
    (hr : ∀ c cs, rest = c :: cs → isDigit c = false) :
    parseNatNum (natDigits n ++ rest) = some (n, rest) := by
  have ht := takeWhile_append_all isDigit (natDigits n) rest (natDigits_all_digit n) hr
  unfold parseNatNum
  rw [ht.1, ht.2]
  simp only [natDigits_ne_nil n, if_false]
  have hz : ((natDigits n).length > 1 && (natDigits n).head? = some '0') = false := by
    by_cases hn : n < 10
    · rw [natDigits_eq]
      simp [hn]
    · rcases hh : natDigits n with _ | ⟨c, cs⟩
      · exact absurd hh (natDigits_ne_nil _)
      · have := natDigits_head_ne_zero n (by omega) c cs hh
        simp [this]
  rw [hz]
  simp [digitsVal_natDigits n]

theorem isDigit_ne_chars (c : Char) (h : isDigit c = true) :
    c ≠ '-' ∧ c ≠ 'n' ∧ c ≠ 't' ∧ c ≠ 'f' ∧ c ≠ '"' ∧ c ≠ '[' ∧ c ≠ '\x7b' ∧
    c ≠ ']' ∧ c ≠ '\x7d' ∧ isWs c = false := by
  have hn : 48 ≤ c.toNat ∧ c.toNat ≤ 57 := by simpa [isDigit] using h
  refine ⟨?_, ?_, ?_, ?_, ?_, ?_, ?_, ?_, ?_, ?_⟩
  · intro hc; subst hc; exact absurd hn (by decide)
  · intro hc; subst hc; exact absurd hn (by decide)
  · intro hc; subst hc; exact absurd hn (by decide)
  · intro hc; subst hc; exact absurd hn (by decide)
  · intro hc; subst hc; exact absurd hn (by decide)
  · intro hc; subst hc; exact absurd hn (by decide)
  · intro hc; subst hc; exact absurd hn (by decide)
  · intro hc; subst hc; exact absurd hn (by decide)
  · intro hc; subst hc; exact absurd hn (by decide)
  · simp [isWs]; omega

theorem parseNum_intChars (n : Int) (rest : Str)
    (hr : ∀ c cs, rest = c :: cs → isDigit c = false) :
    parseNum (intChars n ++ rest) = some (.vnum n, rest) := by
  unfold intChars
  by_cases hn : n < 0
  · simp only [hn, if_true]
    rw [List.cons_append, parseNum.eq_def]
    simp only [if_pos rfl]
    rw [parseNatNum_natDigits _ _ hr]
    simp
    omega
  · simp only [hn, if_false]
    rcases hh : natDigits n.toNat with _ | ⟨c, cs⟩
    · exact absurd hh (natDigits_ne_nil _)
    · have hcd : isDigit c = true := natDigits_all_digit n.toNat c (by rw [hh]; simp)
      have hcm := (isDigit_ne_chars c hcd).1
      have hl : c :: (cs ++ rest) = natDigits n.toNat ++ rest := by
        rw [hh, List.cons_append]
      have hstep : parseNum (c :: (cs ++ rest)) =
          (parseNatNum (c :: (cs ++ rest))).map (fun p => (JSValue.vnum (p.1 : Int), p.2)) := by
        rw [parseNum.eq_def]
        exact if_neg hcm
      rw [List.cons_append, hstep, hl, parseNatNum_natDigits _ _ hr]
      simp
      omega

/-! ## String reading -/

theorem skipWs_not_ws (c : Char) (cs : Str) (h : isWs c = false) :
    skipWs (c :: cs) = c :: cs := by
  simp [skipWs, h]

theorem isHexDigit_hexDigit (m : Nat) (h : m < 16) : isHexDigit (hexDigit m) = true := by
  interval_cases m <;> decide

theorem hexVal_hexDigit (m : Nat) (h : m < 16) : hexVal (hexDigit m) = m := by
  interval_cases m <;> decide

theorem parseStr_escChar (c : Char) (tail : Str) :
    parseStr (escChar c ++ tail) = (parseStr tail).map (fun p => (c :: p.1, p.2)) := by
  unfold escChar
  split_ifs with h1 h2 h3 h4 h5 h6 h7 h8
  · subst h1
    rw [List.cons_append, List.cons_append, parseStr.eq_def]
    simp [decodeSimpleEsc]
  · subst h2
    rw [List.cons_append, List.cons_append, parseStr.eq_def]
    simp [decodeSimpleEsc]
  · rw [show c = Char.ofNat 8 from by rw [← h3]; exact (char_ofNat_toNat c).symm]
    rw [List.cons_append, List.cons_append, parseStr.eq_def]
    simp [decodeSimpleEsc]
  · rw [show c = Char.ofNat 9 from by rw [← h4]; exact (char_ofNat_toNat c).symm]
    rw [List.cons_append, List.cons_append, parseStr.eq_def]
    simp [decodeSimpleEsc]
  · rw [show c = Char.ofNat 10 from by rw [← h5]; exact (char_ofNat_toNat c).symm]
    rw [List.cons_append, List.cons_append, parseStr.eq_def]
    simp [decodeSimpleEsc]
  · rw [show c = Char.ofNat 12 from by rw [← h6]; exact (char_ofNat_toNat c).symm]
    rw [List.cons_append, List.cons_append, parseStr.eq_def]
    simp [decodeSimpleEsc]
  · rw [show c = Char.ofNat 13 from by rw [← h7]; exact (char_ofNat_toNat c).symm]
    rw [List.cons_append, List.cons_append, parseStr.eq_def]
    simp [decodeSimpleEsc]
  · have hhi : c.toNat / 16 < 16 := by omega
    have hlo : c.toNat % 16 < 16 := by omega
    have hval : ((hexVal '0' * 16 + hexVal '0') * 16 + hexVal (hexDigit (c.toNat / 16))) * 16
        + hexVal (hexDigit (c.toNat % 16)) = c.toNat := by
      rw [hexVal_hexDigit _ hhi, hexVal_hexDigit _ hlo,
        show hexVal '0' = 0 from by decide]
      omega
    simp only [List.cons_append, List.nil_append]
    rw [parseStr.eq_def]
    simp only [if_neg (show ¬('\\' : Char) = '"' from by decide), if_pos rfl]
    simp only [isHexDigit_hexDigit _ hhi, isHexDigit_hexDigit _ hlo,
      show isHexDigit '0' = true from by decide, Bool.and_self, Bool.true_and, if_true]
    rw [hval, char_ofNat_toNat]
  · rw [List.cons_append, parseStr.eq_def]
    simp [h1, h2]

theorem parseStr_escStr : ∀ s rest, parseStr (escStr s ++ '"' :: rest) = some (s, rest) := by
  intro s
  induction s with
  | nil =>
    intro rest
    show parseStr ('"' :: rest) = _
    rw [parseStr.eq_def]
    simp
  | cons c s ih =>
    intro rest
    show parseStr ((escChar c ++ escStr s) ++ '"' :: rest) = _
    rw [List.append_assoc, parseStr_escChar, ih rest]
    rfl

/-! ## Parse-of-print round trip -/

theorem intChars_cons (n : Int) :
    ∃ c cs, intChars n = c :: cs ∧ (c = '-' ∨ isDigit c = true) := by
  unfold intChars
  by_cases hn : n < 0
  · simp only [hn, if_true]
    exact ⟨'-', _, rfl, .inl rfl⟩
  · simp only [hn, if_false]
    rcases hh : natDigits n.toNat with _ | ⟨c, cs⟩
    · exact absurd hh (natDigits_ne_nil _)
    · exact ⟨c, cs, rfl, .inr (natDigits_all_digit _ c (by rw [hh]; simp))⟩

theorem numHead_facts (c : Char) (hc : c = '-' ∨ isDigit c = true) :
    isWs c = false ∧ c ≠ 'n' ∧ c ≠ 't' ∧ c ≠ 'f' ∧ c ≠ '"' ∧ c ≠ '[' ∧ c ≠ '\x7b' ∧
    (c = '-' || isDigit c) = true := by
  rcases hc with hc | hc
  · subst hc
    exact ⟨by decide, by decide, by decide, by decide, by decide, by decide, by decide,
      by decide⟩
  · have h := isDigit_ne_chars c hc
    exact ⟨h.2.2.2.2.2.2.2.2.2, h.2.1, h.2.2.1, h.2.2.2.1, h.2.2.2.2.1, h.2.2.2.2.2.1,
      h.2.2.2.2.2.2.1, by simp [hc]⟩

theorem goodFollow_imp (rest : Str) (h : goodFollow rest = true) :
    ∀ c cs, rest = c :: cs → isDigit c = false := by
  intro c cs hr
  subst hr
  have he : goodFollow (c :: cs) = !isDigit c := rfl
  rw [he] at h
  simpa using h

theorem printJson_head (v : JSValue) :
    ∃ c cs, printJson v = c :: cs ∧ isWs c = false ∧ c ≠ ']' ∧ c ≠ '\x7d' := by
  cases v with
  | vnull => exact ⟨'n', _, rfl, by decide, by decide, by decide⟩
  | vbool b =>
    cases b
    · exact ⟨'f', _, rfl, by decide, by decide, by decide⟩
    · exact ⟨'t', _, rfl, by decide, by decide, by decide⟩
  | vnum n =>
    obtain ⟨c, cs, hh, hc⟩ := intChars_cons n
    refine ⟨c, cs, hh, ?_, ?_, ?_⟩
    · rcases hc with hc | hc
      · subst hc; decide
      · exact (isDigit_ne_chars c hc).2.2.2.2.2.2.2.2.2
    · rcases hc with hc | hc
      · subst hc; decide
      · exact (isDigit_ne_chars c hc).2.2.2.2.2.2.2.1
    · rcases hc with hc | hc
      · subst hc; decide
      · exact (isDigit_ne_chars c hc).2.2.2.2.2.2.2.2.1
  | vstr s => exact ⟨'"', _, rfl, by decide, by decide, by decide⟩
  | varr xs => exact ⟨'[', _, rfl, by decide, by decide, by decide⟩
  | vobj kvs => exact ⟨'\x7b', _, rfl, by decide, by decide, by decide⟩
  | vbuf bs => exact ⟨'\x7b', _, rfl, by decide, by decide, by decide⟩

theorem printItems_split (x : JSValue) (xs : List JSValue) :
    ∃ t, printItems (x :: xs) = printJson x ++ t := by
  cases xs with
  | nil =>
    refine ⟨[], ?_⟩
    rw [List.append_nil]
    exact rfl
  | cons y ys => exact ⟨_, rfl⟩

theorem printMembers_head (k : Str) (v : JSValue) (kvs : List (Str × JSValue)) :
    ∃ t, printMembers ((k, v) :: kvs) = '"' :: t := by
  cases kvs with
  | nil => exact ⟨_, rfl⟩
  | cons m ms => exact ⟨_, rfl⟩

theorem bufFreeItems_cons (x : JSValue) (xs : List JSValue) :
    bufFreeItems (x :: xs) = (bufFree x && bufFreeItems xs) := rfl

theorem bufFreeMembers_cons (k : Str) (v : JSValue) (kvs : List (Str × JSValue)) :
    bufFreeMembers ((k, v) :: kvs) = (bufFree v && bufFreeMembers kvs) := rfl

mutual

theorem parseVal_print : ∀ (v : JSValue), bufFree v = true → ∀ fuel rest, needF v ≤ fuel →
    goodFollow rest = true → parseVal fuel (printJson v ++ rest) = some (v, rest)
  | .vnull => by
    intro _ fuel rest hf _
    cases fuel with
    | zero => exact absurd hf (by decide)
    | succ f => rfl
  | .vbool true => by
    intro _ fuel rest hf _
    cases fuel with
    | zero => exact absurd hf (by decide)
    | succ f => rfl
  | .vbool false => by
    intro _ fuel rest hf _
    cases fuel with
    | zero => exact absurd hf (by decide)
    | succ f => rfl
  | .vnum n => by
    intro _ fuel rest hf hr
    cases fuel with
    | zero =>
      have h1 : needF (.vnum n) = 1 := rfl
      omega
    | succ f =>
      obtain ⟨c, cs, hh, hc⟩ := intChars_cons n
      obtain ⟨hws, hn2, ht2, hf2, hq2, hbr2, hbc2, hcond⟩ := numHead_facts c hc
      have hpr : printJson (.vnum n) ++ rest = c :: (cs ++ rest) := by
        show intChars n ++ rest = _
        rw [hh, List.cons_append]
      rw [hpr, parseVal.eq_def]
      simp [skipWs_not_ws c (cs ++ rest) hws, hn2, ht2, hf2, hq2, hbr2, hbc2, hcond]
      have hback : c :: (cs ++ rest) = intChars n ++ rest := by
        rw [hh, List.cons_append]
      rw [hback]
      exact parseNum_intChars n rest (goodFollow_imp rest hr)
  | .vstr s => by
    intro _ fuel rest hf _
    cases fuel with
    | zero =>
      have h1 : needF (.vstr s) = 1 := rfl
      omega
    | succ f =>
      have hpr : printJson (.vstr s) ++ rest = '"' :: (escStr s ++ ('"' :: rest)) := by
        show ('"' :: escStr s ++ ['"']) ++ rest = _
        simp [List.append_assoc]
      rw [hpr, parseVal.eq_def]
      simp [skipWs_not_ws '"' (escStr s ++ ('"' :: rest)) (by decide),
        parseStr_escStr s rest]
  | .varr [] => by
    intro _ fuel rest hf _
    cases fuel with
    | zero =>
      have h1 : needF (.varr []) = 1 := rfl
      omega
    | succ f => rfl
  | .varr (x :: xs) => by
    intro hb fuel rest hf _
    have hbi : bufFreeItems (x :: xs) = true := hb
    cases fuel with
    | zero =>
      have h1 : needF (.varr (x :: xs)) = 1 + needItems (x :: xs) := rfl
      omega
    | succ f =>
      have hfi : needItems (x :: xs) ≤ f := by
        have h1 : needF (.varr (x :: xs)) = 1 + needItems (x :: xs) := rfl
        omega
      obtain ⟨c, cs, hcx, hws, hne, _⟩ := printJson_head x
      obtain ⟨t, ht⟩ := printItems_split x xs
      have hexp : printItems (x :: xs) ++ (']' :: rest) = c :: (cs ++ (t ++ (']' :: rest))) := by
        rw [ht, hcx]
        simp [List.append_assoc]
      have hpr : printJson (.varr (x :: xs)) ++ rest
          = '[' :: (printItems (x :: xs) ++ (']' :: rest)) := by
        show ('[' :: printItems (x :: xs) ++ [']']) ++ rest = _
        simp [List.append_assoc]
      rw [hpr, parseVal.eq_def, hexp]
      simp [skipWs_not_ws '[' (c :: (cs ++ (t ++ (']' :: rest)))) (by decide),
        skipWs_not_ws c (cs ++ (t ++ (']' :: rest))) hws, hne]
      rw [← hexp, parseItems_print (x :: xs) hbi (by simp) f rest hfi]
  | .vobj [] => by
    intro _ fuel rest hf _
    cases fuel with
    | zero =>
      have h1 : needF (.vobj []) = 1 := rfl
      omega
    | succ f => rfl
  | .vobj (kv :: kvs) => by
    intro hb fuel rest hf _
    have hbm : bufFreeMembers (kv :: kvs) = true := hb
    cases fuel with
    | zero =>
      have h1 : needF (.vobj (kv :: kvs)) = 1 + needMembers (kv :: kvs) := rfl
      omega
    | succ f =>
      have hfm : needMembers (kv :: kvs) ≤ f := by
        have h1 : needF (.vobj (kv :: kvs)) = 1 + needMembers (kv :: kvs) := rfl
        omega
      obtain ⟨k, v⟩ := kv
      obtain ⟨t, ht⟩ := printMembers_head k v kvs
      have hexp : printMembers ((k, v) :: kvs) ++ ('\x7d' :: rest)
          = '"' :: (t ++ ('\x7d' :: rest)) := by
        rw [ht]
        rfl
      have hpr : printJson (.vobj ((k, v) :: kvs)) ++ rest
          = '\x7b' :: (printMembers ((k, v) :: kvs) ++ ('\x7d' :: rest)) := by
        show ('\x7b' :: printMembers ((k, v) :: kvs) ++ ['\x7d']) ++ rest = _
        simp [List.append_assoc]
      have hstep : parseVal (f + 1) ('\x7b' :: ('"' :: (t ++ ('\x7d' :: rest))))
          = (parseMembers f ('"' :: (t ++ ('\x7d' :: rest)))).map
              (fun p => (JSValue.vobj p.1, p.2)) := rfl
      rw [hpr, hexp, hstep, ← hexp,
        parseMembers_print ((k, v) :: kvs) hbm (by simp) f rest hfm]
      rfl
  | .vbuf bs => by
    intro hb
    exact absurd hb (by simp [bufFree])

theorem parseItems_print : ∀ (xs : List JSValue), bufFreeItems xs = true → xs ≠ [] →
    ∀ fuel rest, needItems xs ≤ fuel →
    parseItems fuel (printItems xs ++ (']' :: rest)) = some (xs, rest)
  | [] => by
    intro _ h
    exact absurd rfl h
  | [x] => by
    intro hb _ fuel rest hf
    have hbx : bufFree x = true := by
      rw [bufFreeItems_cons] at hb
      exact (Bool.and_eq_true_iff.mp hb).1
    cases fuel with
    | zero =>
      have h1 : needItems [x] = 1 + needF x + 0 := rfl
      omega
    | succ f =>
      have hfx : needF x ≤ f := by
        have h1 : needItems [x] = 1 + needF x + 0 := rfl
        omega
      have hpp : printItems [x] = printJson x := rfl
      rw [hpp, parseItems.eq_def]
      simp [parseVal_print x hbx f (']' :: rest) hfx rfl,
        skipWs_not_ws ']' rest (by decide)]
  | x :: y :: xs => by
    intro hb _ fuel rest hf
    have hbx : bufFree x = true := by
      rw [bufFreeItems_cons] at hb
      exact (Bool.and_eq_true_iff.mp hb).1
    have hbt : bufFreeItems (y :: xs) = true := by
      rw [bufFreeItems_cons] at hb
      exact (Bool.and_eq_true_iff.mp hb).2
    cases fuel with
    | zero =>
      have h1 : needItems (x :: y :: xs) = 1 + needF x + needItems (y :: xs) := rfl
      omega
    | succ f =>
      have h1 : needItems (x :: y :: xs) = 1 + needF x + needItems (y :: xs) := rfl
      have hfx : needF x ≤ f := by omega
      have hft : needItems (y :: xs) ≤ f := by omega
      have hpp : printItems (x :: y :: xs) ++ (']' :: rest)
          = printJson x ++ (',' :: (printItems (y :: xs) ++ (']' :: rest))) := by
        show (printJson x ++ ',' :: printItems (y :: xs)) ++ (']' :: rest) = _
        simp [List.append_assoc]
      rw [hpp, parseItems.eq_def]
      simp [parseVal_print x hbx f (',' :: (printItems (y :: xs) ++ (']' :: rest))) hfx rfl,
        skipWs_not_ws ',' (printItems (y :: xs) ++ (']' :: rest)) (by decide),
        parseItems_print (y :: xs) hbt (by simp) f rest hft]

theorem parseMembers_print : ∀ (kvs : List (Str × JSValue)), bufFreeMembers kvs = true →
    kvs ≠ [] → ∀ fuel rest, needMembers kvs ≤ fuel →
    parseMembers fuel (printMembers kvs ++ ('\x7d' :: rest)) = some (kvs, rest)
  | [] => by
    intro _ h
    exact absurd rfl h
  | [(k, v)] => by
    intro hb _ fuel rest hf
    have hbv : bufFree v = true := by
      rw [bufFreeMembers_cons] at hb
      exact (Bool.and_eq_true_iff.mp hb).1
    cases fuel with
    | zero =>
      have h1 : needMembers [(k, v)] = 1 + needF v + 0 := rfl
      omega
    | succ f =>
      have hfv : needF v ≤ f := by
        have h1 : needMembers [(k, v)] = 1 + needF v + 0 := rfl
        omega
      have hpp : printMembers [(k, v)] ++ ('\x7d' :: rest)
          = '"' :: (escStr k ++ ('"' :: (':' :: (printJson v ++ ('\x7d' :: rest))))) := by
        show ('"' :: escStr k ++ '"' :: ':' :: printJson v) ++ ('\x7d' :: rest) = _
        simp [List.append_assoc]
      rw [hpp, parseMembers.eq_def]
      simp [skipWs_not_ws '"'
          (escStr k ++ ('"' :: (':' :: (printJson v ++ ('\x7d' :: rest))))) (by decide),
        parseStr_escStr k (':' :: (printJson v ++ ('\x7d' :: rest))),
        skipWs_not_ws ':' (printJson v ++ ('\x7d' :: rest)) (by decide),
        parseVal_print v hbv f ('\x7d' :: rest) hfv rfl,
        skipWs_not_ws '\x7d' rest (by decide)]
  | (k, v) :: m :: kvs => by
    intro hb _ fuel rest hf
    have hbv : bufFree v = true := by
      rw [bufFreeMembers_cons] at hb
      exact (Bool.and_eq_true_iff.mp hb).1
    have hbt : bufFreeMembers (m :: kvs) = true := by
      rw [bufFreeMembers_cons] at hb
      exact (Bool.and_eq_true_iff.mp hb).2
    cases fuel with
    | zero =>
      have h1 : needMembers ((k, v) :: m :: kvs) = 1 + needF v + needMembers (m :: kvs) := rfl
      omega
    | succ f =>
      have h1 : needMembers ((k, v) :: m :: kvs) = 1 + needF v + needMembers (m :: kvs) := rfl
      have hfv : needF v ≤ f := by omega
      have hft : needMembers (m :: kvs) ≤ f := by omega
      have hpp : printMembers ((k, v) :: m :: kvs) ++ ('\x7d' :: rest)
          = '"' :: (escStr k ++ ('"' :: (':' :: (printJson v
              ++ (',' :: (printMembers (m :: kvs) ++ ('\x7d' :: rest))))))) := by
        show (('"' :: escStr k ++ '"' :: ':' :: printJson v) ++ ',' :: printMembers (m :: kvs))
            ++ ('\x7d' :: rest) = _
        simp [List.append_assoc]
      rw [hpp, parseMembers.eq_def]
      simp [skipWs_not_ws '"'
          (escStr k ++ ('"' :: (':' :: (printJson v
            ++ (',' :: (printMembers (m :: kvs) ++ ('\x7d' :: rest))))))) (by decide),
        parseStr_escStr k
          (':' :: (printJson v ++ (',' :: (printMembers (m :: kvs) ++ ('\x7d' :: rest))))),
        skipWs_not_ws ':'
          (printJson v ++ (',' :: (printMembers (m :: kvs) ++ ('\x7d' :: rest)))) (by decide),
        parseVal_print v hbv f
          (',' :: (printMembers (m :: kvs) ++ ('\x7d' :: rest))) hfv rfl,
        skipWs_not_ws ',' (printMembers (m :: kvs) ++ ('\x7d' :: rest)) (by decide),
        parseMembers_print (m :: kvs) hbt (by simp) f rest hft]

end

mutual

theorem needF_le_len : ∀ v : JSValue, needF v ≤ (printJson v).length
  | .vnull => by decide
  | .vbool true => by decide
  | .vbool false => by decide
  | .vnum n => by
    obtain ⟨c, cs, hh, _⟩ := intChars_cons n
    have h1 : needF (.vnum n) = 1 := rfl
    have h2 : printJson (.vnum n) = c :: cs := hh
    rw [h1, h2]
    simp
  | .vstr s => by
    have h1 : needF (.vstr s) = 1 := rfl
    have h2 : printJson (.vstr s) = '"' :: (escStr s ++ ['"']) := rfl
    rw [h1, h2]
    simp
  | .varr xs => by
    have h1 : needF (.varr xs) = 1 + needItems xs := rfl
    have h2 : printJson (.varr xs) = '[' :: (printItems xs ++ [']']) := rfl
    have h3 := needItems_le_len xs
    rw [h1, h2]
    simp
    omega
  | .vobj kvs => by
    have h1 : needF (.vobj kvs) = 1 + needMembers kvs := rfl
    have h2 : printJson (.vobj kvs) = '\x7b' :: (printMembers kvs ++ ['\x7d']) := rfl
    have h3 := needMembers_le_len kvs
    rw [h1, h2]
    simp
    omega
  | .vbuf bs => by
    have h1 : needF (.vbuf bs) = 1 := rfl
    have h2 : printJson (.vbuf bs)
        = '\x7b' :: ('"' :: 't' :: 'y' :: 'p' :: 'e' :: '"' :: ':' ::
          '"' :: 'B' :: 'u' :: 'f' :: 'f' :: 'e' :: 'r' :: '"' :: ',' ::
          '"' :: 'd' :: 'a' :: 't' :: 'a' :: '"' :: ':' ::
          (printNumArr bs ++ ['\x7d'])) := rfl
    rw [h1, h2]
    simp

theorem needItems_le_len : ∀ xs : List JSValue, needItems xs ≤ (printItems xs).length + 1
  | [] => by decide
  | [x] => by
    have h1 : needItems [x] = 1 + needF x + 0 := rfl
    have h2 : printItems [x] = printJson x := rfl
    have h3 := needF_le_len x
    rw [h1, h2]
    omega
  | x :: y :: xs => by
    have h1 : needItems (x :: y :: xs) = 1 + needF x + needItems (y :: xs) := rfl
    have h2 : printItems (x :: y :: xs) = printJson x ++ (',' :: printItems (y :: xs)) := rfl
    have h3 := needF_le_len x
    have h4 := needItems_le_len (y :: xs)
    rw [h1, h2]
    simp
    omega

theorem needMembers_le_len : ∀ kvs : List (Str × JSValue),
    needMembers kvs ≤ (printMembers kvs).length + 1
  | [] => by decide
  | [(k, v)] => by
    have h1 : needMembers [(k, v)] = 1 + needF v + 0 := rfl
    have h2 : printMembers [(k, v)] = ('"' :: escStr k) ++ ('"' :: ':' :: printJson v) := rfl
    have h3 := needF_le_len v
    rw [h1, h2]
    simp
    omega
  | (k, v) :: m :: kvs => by
    have h1 : needMembers ((k, v) :: m :: kvs)
        = 1 + needF v + needMembers (m :: kvs) := rfl
    have h2 : printMembers ((k, v) :: m :: kvs)
        = (('"' :: escStr k) ++ ('"' :: ':' :: printJson v)) ++ (',' :: printMembers (m :: kvs)) := rfl
    have h3 := needF_le_len v
    have h4 := needMembers_le_len (m :: kvs)
    rw [h1, h2]
    simp
    omega

end

theorem jsonParse_printJson (v : JSValue) (hb : bufFree v = true) :
    jsonParse (printJson v) = some v := by
  unfold jsonParse
  have hfuel : needF v ≤ 2 * (printJson v).length + 2 := by
    have := needF_le_len v
    omega
  have h := parseVal_print v hb (2 * (printJson v).length + 2) [] hfuel rfl
  rw [List.append_nil] at h
  rw [h]
  rfl

/-! ## The store's decode-of-encode convention -/

theorem intChars_ofNat (b : Nat) : intChars (Int.ofNat b) = natDigits b := by
  have h0 : ¬Int.ofNat b < 0 := by
    rw [Int.ofNat_eq_natCast]
    omega
  unfold intChars
  rw [if_neg h0]
  rfl

theorem printNumItems_map : ∀ bs : List Nat,
    printNumItems bs = printItems (bs.map (fun b => JSValue.vnum (Int.ofNat b))) := by
  intro bs
  match bs with
  | [] => rfl
  | [b] =>
    show natDigits b = printJson (.vnum (Int.ofNat b))
    show natDigits b = intChars (Int.ofNat b)
    rw [intChars_ofNat]
  | b :: b2 :: bs =>
    show natDigits b ++ ',' :: printNumItems (b2 :: bs)
        = printJson (.vnum (Int.ofNat b))
          ++ ',' :: printItems ((b2 :: bs).map (fun b => JSValue.vnum (Int.ofNat b)))
    rw [printNumItems_map (b2 :: bs),
      show printJson (JSValue.vnum (Int.ofNat b)) = intChars (Int.ofNat b) from rfl,
      intChars_ofNat]

theorem printJson_vbuf_eq (bs : List Nat) :
    printJson (.vbuf bs) = printJson (bufTag bs) := by
  rw [show printJson (.vbuf bs)
      = '\x7b' :: '"' :: 't' :: 'y' :: 'p' :: 'e' :: '"' :: ':' ::
        '"' :: 'B' :: 'u' :: 'f' :: 'f' :: 'e' :: 'r' :: '"' :: ',' ::
        '"' :: 'd' :: 'a' :: 't' :: 'a' :: '"' :: ':' :: '[' ::
        ((printNumItems bs ++ [']']) ++ ['\x7d']) from rfl,
    printNumItems_map bs]
  rfl

theorem bufFreeItems_map_vnum : ∀ bs : List Nat,
    bufFreeItems (bs.map (fun b => JSValue.vnum (Int.ofNat b))) = true := by
  intro bs
  induction bs with
  | nil => rfl
  | cons b bs ih =>
    rw [List.map_cons, bufFreeItems_cons, ih]
    rfl

theorem bufFree_bufTag (bs : List Nat) : bufFree (bufTag bs) = true := by
  show bufFreeMembers [(['t', 'y', 'p', 'e'], JSValue.vstr ['B', 'u', 'f', 'f', 'e', 'r']),
    (['d', 'a', 't', 'a'], JSValue.varr (bs.map (fun b => JSValue.vnum (Int.ofNat b))))] = true
  rw [bufFreeMembers_cons, bufFreeMembers_cons,
    show bufFree (JSValue.vstr ['B', 'u', 'f', 'f', 'e', 'r']) = true from rfl,
    show bufFree (JSValue.varr (bs.map (fun b => JSValue.vnum (Int.ofNat b))))
      = bufFreeItems (bs.map (fun b => JSValue.vnum (Int.ofNat b))) from rfl,
    bufFreeItems_map_vnum bs]
  rfl

theorem decodeValue_encodeValue (v : JSValue) (hb : bufFree v = true)
    (hs : ∀ s, v = .vstr s → jsonParse s = none) :
    decodeValue (encodeValue v) = v := by
  cases v with
  | vstr s =>
    show decodeValue s = .vstr s
    unfold decodeValue
    rw [hs s rfl]
  | vnull =>
    show decodeValue (printJson .vnull) = .vnull
    unfold decodeValue
    rw [jsonParse_printJson .vnull rfl]
  | vbool b =>
    cases b
    · show decodeValue (printJson (.vbool false)) = .vbool false
      unfold decodeValue
      rw [jsonParse_printJson (.vbool false) rfl]
    · show decodeValue (printJson (.vbool true)) = .vbool true
      unfold decodeValue
      rw [jsonParse_printJson (.vbool true) rfl]
  | vnum n =>
    show decodeValue (printJson (.vnum n)) = .vnum n
    unfold decodeValue
    rw [jsonParse_printJson (.vnum n) rfl]
  | varr xs =>
    show decodeValue (printJson (.varr xs)) = .varr xs
    unfold decodeValue
    rw [jsonParse_printJson _ hb]
  | vobj kvs =>
    show decodeValue (printJson (.vobj kvs)) = .vobj kvs
    unfold decodeValue
    rw [jsonParse_printJson _ hb]
  | vbuf bs => exact Bool.noConfusion hb

theorem decodeValue_encodeValue_buf (bs : List Nat) :
    decodeValue (encodeValue (.vbuf bs)) = bufTag bs := by
  show decodeValue (printJson (.vbuf bs)) = bufTag bs
  unfold decodeValue
  rw [printJson_vbuf_eq bs, jsonParse_printJson (bufTag bs) (bufFree_bufTag bs)]

theorem lookupDB_upsert_self (db : Database) (k v : Str) :
    lookupDB (upsert db k v) k = some v := by
  unfold upsert lookupDB
  induction db with
  | nil => simp
  | cons a db ih =>
    by_cases h : a.1 == k
    · simp only [List.filter_cons, h, Bool.not_true, Bool.false_eq_true, if_false]
      exact ih
    · simp only [List.filter_cons, h, Bool.not_false, if_true, List.cons_append,
        List.find?, h, Bool.false_eq_true, if_false]
      exact ih

theorem lookupDB_filter_preserved (db : Database) (pat k : Str)
    (h : likeMatch pat k = false) :
    lookupDB (db.filter (fun kv => !likeMatch pat kv.1)) k = lookupDB db k := by
  induction db with
  | nil => rfl
  | cons a db ih =>
    by_cases hm : likeMatch pat a.1
    · have hk : (a.1 == k) = false := by
        by_cases he : a.1 = k
        · rw [he] at hm
          rw [hm] at h
          cases h
        · simp [he]
      simp only [List.filter_cons, hm, Bool.not_true, Bool.false_eq_true, if_false]
      rw [ih]
      unfold lookupDB
      simp only [List.find?, hk, Bool.false_eq_true, if_false]
    · simp only [List.filter_cons, hm, Bool.not_false, if_true]
      unfold lookupDB
      by_cases hk : (a.1 == k)
      · simp [List.find?, hk]
      · simp only [List.find?, hk, Bool.false_eq_true, if_false]
        exact ih

/-! ## Claim theorems -/

/-- C1 (amended).  After a successful `write(k, v)`, `read(k)` returns
the decode of the stored encoding.  For values containing no byte
sequence whose top level is not a raw text that itself reads as JSON,
the result is deep-equal to `v`; and for a byte-sequence value the
result is the tagged object `{type:'Buffer',data:bs}` whose `data`
array equals the original bytes exactly.  (The claim as frozen fails
for JSON-parsable text and for the un-tagging of byte sequences; see
the counterexample.) -/
theorem c1_read_after_write (env : DBEnv) (db db2 : Database) (k : Str)
    (v : JSValue) (hw : writeToDB env db k v = .ok db2) :
    (bufFree v = true → (∀ s, v = .vstr s → jsonParse s = none) →
      readFromDB true db2 k = some v) ∧
    (∀ bs, v = .vbuf bs → readFromDB true db2 k = some (bufTag bs)) := by
  unfold writeToDB at hw
  by_cases h1 : v = JSValue.vnull
  · rw [if_pos h1] at hw
    exact absurd hw (by simp)
  rw [if_neg h1] at hw
  by_cases h2 : (!env.loadOk) = true
  · rw [if_pos h2] at hw
    exact absurd hw (by simp)
  rw [if_neg h2] at hw
  by_cases h3 : (!env.writeOk) = true
  · rw [if_pos h3] at hw
    exact absurd hw (by simp)
  rw [if_neg h3] at hw
  have hdb : upsert db k (encodeValue v) = db2 := Except.ok.inj hw
  constructor
  · intro hb hs
    unfold readFromDB
    rw [← hdb, show (!true) = false from rfl]
    simp only [Bool.false_eq_true, if_false]
    rw [lookupDB_upsert_self]
    show some (decodeValue (encodeValue v)) = some v
    rw [decodeValue_encodeValue v hb hs]
  · intro bs hbs
    subst hbs
    unfold readFromDB
    rw [← hdb, show (!true) = false from rfl]
    simp only [Bool.false_eq_true, if_false]
    rw [lookupDB_upsert_self]
    show some (decodeValue (encodeValue (.vbuf bs))) = some (bufTag bs)
    rw [decodeValue_encodeValue_buf bs]

/-- Witness for C1: writing the object `{a: 1}` under key `k` stores its
JSON text and reading it back returns the object. -/
theorem c1_read_after_write_witness :
    readFromDB true [((['k'] : Str), ['\x7b', '"', 'a', '"', ':', '1', '\x7d'])] ['k']
      = some (.vobj [(['a'], .vnum 1)]) :=
  (c1_read_after_write ⟨true, true⟩ [] [((['k'] : Str), ['\x7b', '"', 'a', '"', ':', '1', '\x7d'])]
      ['k'] (.vobj [(['a'], .vnum 1)]) rfl).1 (by decide)
    (fun s h => JSValue.noConfusion h)

/-- Counterexample to C1 as frozen: writing the *string* `"5"` succeeds,
but reading the key back returns the *number* 5 — the stored text parses
as JSON, so the raw text is not returned and the round trip fails. -/
theorem c1_counterexample :
    writeToDB ⟨true, true⟩ [] ['k'] (.vstr ['5'])
      = .ok [((['k'] : Str), ['5'])] ∧
    readFromDB true [((['k'] : Str), ['5'])] ['k'] = some (.vnum 5) ∧
    JSValue.vnum 5 ≠ JSValue.vstr ['5'] := by
  refine ⟨rfl, by decide, by decide⟩

/-- C7 (confirmed).  `write(key, value)` fails exactly when the value
is null/undefined (signalled as the invalid-value error naming the key)
or when loading the image or the final file write fails; the error
propagates as the call's result, and in every other case the write
returns ok with the row upserted. -/
theorem c7_write_error_iff (env : DBEnv) (db : Database) (k : Str) (v : JSValue) :
    ((∃ e, writeToDB env db k v = .error e)
      ↔ (v = .vnull ∨ env.loadOk = false ∨ env.writeOk = false)) ∧
    (v = .vnull → writeToDB env db k v = .error (.invalidValue k)) ∧
    (v ≠ .vnull → env.loadOk = false → writeToDB env db k v = .error (.ioError "load")) ∧
    (v ≠ .vnull → env.loadOk = true → env.writeOk = false →
      writeToDB env db k v = .error (.ioError "write")) ∧
    (v ≠ .vnull → env.loadOk = true → env.writeOk = true →
      writeToDB env db k v = .ok (upsert db k (encodeValue v))) := by
  obtain ⟨lo, wo⟩ := env
  unfold writeToDB
  by_cases hv : v = .vnull <;> cases lo <;> cases wo <;> simp [hv]

/-- Witness for C7: a write of `true` with a failing final file write
surfaces the I/O error. -/
theorem c7_write_error_iff_witness :
    writeToDB ⟨true, false⟩ [] ['k'] (.vbool true) = .error (.ioError "write") :=
  (c7_write_error_iff ⟨true, false⟩ [] ['k'] (.vbool true)).2.2.2.1 (by decide) rfl rfl

/-- C9 (confirmed).  `deleteByPattern(pattern)` removes exactly the
rows whose keys match the SQL-style wildcard pattern, leaves every
non-matching key readable with its original value, and returns the
number of rows removed; in particular, with keys `foo.a`, `foo.b`,
`bar.c`, the pattern `foo.%` removes 2 rows and leaves `bar.c` readable
with its original value. -/
theorem c9_deleteByPattern_exact (db : Database) (pat : Str) :
    ((deleteByPattern ⟨true, true⟩ db pat).1
        = db.filter (fun kv => !likeMatch pat kv.1)) ∧
    ((deleteByPattern ⟨true, true⟩ db pat).2
        = (db.filter (fun kv => likeMatch pat kv.1)).length) ∧
    (∀ kv ∈ (deleteByPattern ⟨true, true⟩ db pat).1, likeMatch pat kv.1 = false) ∧
    (∀ k, likeMatch pat k = false →
      lookupDB (deleteByPattern ⟨true, true⟩ db pat).1 k = lookupDB db k) ∧
    ((deleteByPattern ⟨true, true⟩
        [("foo.a".data, ['1']), ("foo.b".data, ['2']), ("bar.c".data, ['3'])]
        "foo.%".data).2 = 2
      ∧ lookupDB (deleteByPattern ⟨true, true⟩
          [("foo.a".data, ['1']), ("foo.b".data, ['2']), ("bar.c".data, ['3'])]
          "foo.%".data).1 "bar.c".data = some ['3']) := by
  refine ⟨rfl, rfl, ?_, ?_, by decide, by decide⟩
  · intro kv hkv
    have h := List.of_mem_filter hkv
    simpa using h
  · intro k h
    exact lookupDB_filter_preserved db pat k h

/-- Witness for C9: deleting `a%` from a one-row table removes the row. -/
theorem c9_deleteByPattern_exact_witness :
    ∀ kv ∈ (deleteByPattern ⟨true, true⟩ [((['a'] : Str), ['1'])] ['a', '%']).1,
      likeMatch ['a', '%'] kv.1 = false :=
  (c9_deleteByPattern_exact [((['a'] : Str), ['1'])] ['a', '%']).2.2.1

/-- C10 (confirmed).  On a non-empty stored account list of length
`n` with current index `i`, `getNextAccount` returns the account at
index `(i+1) % n` together with that index and leaves the state (hence
the stored index) unchanged; on an empty list it returns `(null, -1)`.
The stored index is modelled as a natural number, the only values the
manager itself ever stores. -/
theorem c10_getNextAccount_cyclic (st : ManagerState) :
    (st.accounts = [] → getNextAccount st = ((none, -1), st)) ∧
    (st.accounts ≠ [] →
      ∃ a, st.accounts[(st.currentIndex + 1) % st.accounts.length]? = some a ∧
        getNextAccount st
          = ((some a, (((st.currentIndex + 1) % st.accounts.length : Nat) : Int)), st)) := by
  constructor
  · intro h
    unfold getNextAccount
    simp [h]
  · intro h
    have hlen : 0 < st.accounts.length := List.length_pos.mpr h
    have hlt : (st.currentIndex + 1) % st.accounts.length < st.accounts.length :=
      Nat.mod_lt _ hlen
    refine ⟨st.accounts[(st.currentIndex + 1) % st.accounts.length], ?_, ?_⟩
    · exact List.getElem?_eq_getElem hlt
    · unfold getNextAccount
      rw [if_neg (by simpa [List.isEmpty_iff] using h)]
      simp [List.getElem?_eq_getElem hlt]

/-- Witness for C10: with two stored accounts and current index 0, the
next account is the second one at index 1, and the state is unchanged. -/
theorem c10_getNextAccount_cyclic_witness :
    ∃ a, ([⟨"1", "a", "a", "k", "u", "r", "p", "c", "u"⟩,
          ⟨"2", "b", "b", "k", "u", "r", "p", "c", "u"⟩] : List Account)[1]? = some a ∧
      getNextAccount ⟨[⟨"1", "a", "a", "k", "u", "r", "p", "c", "u"⟩,
          ⟨"2", "b", "b", "k", "u", "r", "p", "c", "u"⟩], 0⟩
        = ((some a, (1 : Int)),
           ⟨[⟨"1", "a", "a", "k", "u", "r", "p", "c", "u"⟩,
             ⟨"2", "b", "b", "k", "u", "r", "p", "c", "u"⟩], 0⟩) :=
  (c10_getNextAccount_cyclic ⟨[⟨"1", "a", "a", "k", "u", "r", "p", "c", "u"⟩,
      ⟨"2", "b", "b", "k", "u", "r", "p", "c", "u"⟩], 0⟩).2 (by simp)

/-- C4 (confirmed).  If the patch check reports needsRestart,
`switchAccount` enters no further step — no logout, no identity reset,
no session injection, no store write — schedules the deferred window
reload, and returns an outcome with success false and needsRestart true
(the code additionally fills the error field with its restart notice). -/
theorem c4_needsRestart_aborts (env : SwitchEnv) (pr : PatchResult)
    (hp : env.patch = .ok pr) (hr : pr.needsRestart = true) :
    switchAccount env =
      ({ success := false, error := some "补丁已应用，正在重启", needsRestart := some true },
       { logoutAttempted := false, resetAttempted := false, injectAttempted := false,
         writesAttempted := 0, reloadScheduled := true }) := by
  unfold switchAccount
  rw [hp]
  simp [hr]

/-- Witness for C4 at a concrete environment. -/
theorem c4_needsRestart_aborts_witness :
    switchAccount ⟨.ok ⟨true, none⟩, .ok (), .ok (), .ok (), fun _ => .ok ()⟩ =
      ({ success := false, error := some "补丁已应用，正在重启", needsRestart := some true },
       { logoutAttempted := false, resetAttempted := false, injectAttempted := false,
         writesAttempted := 0, reloadScheduled := true }) :=
  c4_needsRestart_aborts _ ⟨true, none⟩ rfl rfl

/-- C3 (confirmed).  When the patch check passes and the
live-injection command throws, the fallback store write runs: if all
three record writes succeed, `switchAccount` schedules the deferred
reload and returns success true; if any of the three writes errors,
the outcome carries success false with the error text and no reload is
scheduled. -/
theorem c3_fallback_write (env : SwitchEnv) (pr : PatchResult)
    (hp : env.patch = .ok pr) (hnr : pr.needsRestart = false) (hne : pr.error = none)
    (m : String) (hi : env.inject = .error m) :
    (∀ n, writeAuthData env.writes 0 = (.ok (), n) →
      switchAccount env =
        ({ success := true, error := none, needsRestart := none },
         { logoutAttempted := true, resetAttempted := true, injectAttempted := true,
           writesAttempted := n, reloadScheduled := true })) ∧
    (∀ e n, writeAuthData env.writes 0 = (.error e, n) →
      switchAccount env =
        ({ success := false, error := some e, needsRestart := none },
         { logoutAttempted := true, resetAttempted := true, injectAttempted := true,
           writesAttempted := n, reloadScheduled := false })) := by
  constructor
  · intro n hwp
    unfold switchAccount
    rw [hp]
    simp [hnr, hne, hi, hwp]
  · intro e n hwp
    unfold switchAccount
    rw [hp]
    simp [hnr, hne, hi, hwp]

/-- Witness for C3: with every store write failing, the fallback
surfaces the write error as a failed switch. -/
theorem c3_fallback_write_witness :
    switchAccount ⟨.ok ⟨false, none⟩, .ok (), .ok (), .error "inject gone",
        fun _ => .error "disk full"⟩ =
      ({ success := false, error := some "disk full", needsRestart := none },
       { logoutAttempted := true, resetAttempted := true, injectAttempted := true,
         writesAttempted := 1, reloadScheduled := false }) :=
  (c3_fallback_write _ ⟨false, none⟩ rfl rfl rfl "inject gone" rfl).2 "disk full" 1 rfl

/-- C2 (amended).  When the patch check passes and live injection
succeeds, `switchAccount` returns success true provided the subsequent
auth-data write succeeds; if that write throws, the failure lands in
the injection catch, which re-runs the write as the fallback: a
successful retry still yields success true (now with a deferred
reload), but if the retry also fails the outcome is success false
carrying the second error.  (The claim as frozen — that a failing
best-effort write never changes the successful outcome — is refuted by
the counterexample.) -/
theorem c2_inject_success_outcomes (env : SwitchEnv) (pr : PatchResult)
    (hp : env.patch = .ok pr) (hnr : pr.needsRestart = false) (hne : pr.error = none)
    (hi : env.inject = .ok ()) :
    (∀ n, writeAuthData env.writes 0 = (.ok (), n) →
      switchAccount env =
        ({ success := true, error := none, needsRestart := none },
         { logoutAttempted := true, resetAttempted := true, injectAttempted := true,
           writesAttempted := n, reloadScheduled := false })) ∧
    (∀ e n, writeAuthData env.writes 0 = (.error e, n) →
      (∀ n2, writeAuthData env.writes n = (.ok (), n2) →
        switchAccount env =
          ({ success := true, error := none, needsRestart := none },
           { logoutAttempted := true, resetAttempted := true, injectAttempted := true,
             writesAttempted := n2, reloadScheduled := true })) ∧
      (∀ e2 n2, writeAuthData env.writes n = (.error e2, n2) →
        switchAccount env =
          ({ success := false, error := some e2, needsRestart := none },
           { logoutAttempted := true, resetAttempted := true, injectAttempted := true,
             writesAttempted := n2, reloadScheduled := false }))) := by
  refine ⟨?_, ?_⟩
  · intro n hwp
    unfold switchAccount
    rw [hp]
    simp [hnr, hne, hi, hwp]
  · intro e n hwp
    refine ⟨?_, ?_⟩
    · intro n2 hwp2
      unfold switchAccount
      rw [hp]
      simp [hnr, hne, hi, hwp, hwp2]
    · intro e2 n2 hwp2
      unfold switchAccount
      rw [hp]
      simp [hnr, hne, hi, hwp, hwp2]

/-- Witness for C2: injection succeeds and the auth-data write
succeeds, so the switch reports success with no reload. -/
theorem c2_inject_success_outcomes_witness :
    switchAccount ⟨.ok ⟨false, none⟩, .ok (), .ok (), .ok (), fun _ => .ok ()⟩ =
      ({ success := true, error := none, needsRestart := none },
       { logoutAttempted := true, resetAttempted := true, injectAttempted := true,
         writesAttempted := 3, reloadScheduled := false }) :=
  (c2_inject_success_outcomes _ ⟨false, none⟩ rfl rfl rfl rfl).1 3 rfl

/-- Counterexample to C2 as frozen: the live-injection command succeeds
(`inject` is ok) yet `switchAccount` ends with success false, because
the follow-up store write and its fallback retry both fail. -/
theorem c2_counterexample :
    (SwitchEnv.mk (.ok ⟨false, none⟩) (.ok ()) (.ok ()) (.ok ())
        (fun _ => .error "disk full")).inject = .ok () ∧
    (switchAccount (SwitchEnv.mk (.ok ⟨false, none⟩) (.ok ()) (.ok ()) (.ok ())
        (fun _ => .error "disk full"))).1.success = false :=
  ⟨rfl, rfl⟩

theorem lookupDoc_setKey_self (doc : Doc) (k : Str) (v : JSValue) :
    lookupDoc (setKey doc k v) k = some v := by
  induction doc with
  | nil => simp [setKey, lookupDoc]
  | cons a doc ih =>
    by_cases h : a.1 = k
    · simp [setKey, h, lookupDoc]
    · obtain ⟨k2, v2⟩ := a
      simp only at h
      simp only [setKey, h, if_false]
      unfold lookupDoc at ih ⊢
      simp only [List.find?, show (k2 == k) = false from by simp [h], Bool.false_eq_true,
        if_false]
      exact ih

theorem lookupDoc_setKey_other (doc : Doc) (k : Str) (v : JSValue) (k2 : Str)
    (h : k2 ≠ k) :
    lookupDoc (setKey doc k v) k2 = lookupDoc doc k2 := by
  induction doc with
  | nil =>
    unfold setKey lookupDoc
    simp [show (k == k2) = false from by simp [Ne.symm h]]
  | cons a doc ih =>
    obtain ⟨ka, va⟩ := a
    by_cases ha : ka = k
    · simp only [setKey, ha, if_pos rfl]
      unfold lookupDoc
      simp only [List.find?, show (k == k2) = false from by simp [Ne.symm h],
        show (ka == k2) = false from by simp [ha, Ne.symm h], Bool.false_eq_true, if_false]
    · simp only [setKey, ha, if_false]
      unfold lookupDoc at ih ⊢
      by_cases hk : ka = k2
      · simp [List.find?, hk]
      · simp only [List.find?, show (ka == k2) = false from by simp [hk],
          Bool.false_eq_true, if_false]
        exact ih

/-- C5 (amended).  The identity persister's document write is
attempted at most 3 times, with delays 500·2 and 500·3 before the
second and third attempts; if the write fails twice then succeeds on
the third attempt, `resetMachineId` returns the generated identifier
set without error; if all three attempts fail, the last attempt's
error text is surfaced to the caller, wrapped in the reset-failure
message.  (The claim as frozen says the original error is surfaced;
the counterexample shows the surfaced text derives from the last
error.) -/
theorem c5_retry_policy (att : Nat → Except String Unit) :
    ((retryWrite att).2.1 ≤ 3) ∧
    (∀ e0 e1, att 0 = .error e0 → att 1 = .error e1 → att 2 = .ok () →
      retryWrite att = (none, 3, [1000, 1500]) ∧
      ∀ r darwin readDoc, ∃ doc : Doc,
        resetMachineId r darwin readDoc att = .ok (generateMachineIds r, doc)) ∧
    (∀ e0 e1 e2, att 0 = .error e0 → att 1 = .error e1 → att 2 = .error e2 →
      retryWrite att = (some e2, 3, [1000, 1500]) ∧
      ∀ r darwin readDoc, resetMachineId r darwin readDoc att
        = .error ("重置机器 ID 失败: " ++ e2)) := by
  refine ⟨?_, ?_, ?_⟩
  · rcases h0 : att 0 with e0 | u0
    · rcases h1 : att 1 with e1 | u1
      · rcases h2 : att 2 with e2 | u2
        · simp [retryWrite, retryAux, h0, h1, h2]
        · simp [retryWrite, retryAux, h0, h1, h2]
      · simp [retryWrite, retryAux, h0, h1]
    · simp [retryWrite, retryAux, h0]
  · intro e0 e1 h0 h1 h2
    have hrw : retryWrite att = (none, 3, [1000, 1500]) := by
      simp [retryWrite, retryAux, h0, h1, h2]
    refine ⟨hrw, ?_⟩
    intro r darwin readDoc
    unfold resetMachineId
    rw [hrw]
    exact ⟨_, rfl⟩
  · intro e0 e1 e2 h0 h1 h2
    have hrw : retryWrite att = (some e2, 3, [1000, 1500]) := by
      simp [retryWrite, retryAux, h0, h1, h2]
    refine ⟨hrw, ?_⟩
    intro r darwin readDoc
    unfold resetMachineId
    rw [hrw]

/-- Witness for C5: an oracle failing twice then succeeding performs 3
attempts with delays 1000 and 1500 and no surviving error. -/
theorem c5_retry_policy_witness :
    retryWrite (fun i => if i < 2 then .error "locked" else .ok ())
      = (none, 3, [1000, 1500]) :=
  ((c5_retry_policy (fun i => if i < 2 then .error "locked" else .ok ())).2.1
    "locked" "locked" rfl rfl rfl).1

/-- Counterexample to C5 as frozen: with distinct errors on the three
attempts (`a`, `b`, `c`), the surfaced error text carries the last
error `c`, not the original error `a`. -/
theorem c5_counterexample :
    (fun i => Except.error (ε := String) (α := Unit)
        (if i = 0 then "a" else if i = 1 then "b" else "c")) 0 = .error "a" ∧
    resetMachineId ⟨[], [], ⟨0, 0, 0, 0, 0, 0, 0, 0, 0, 0, 0, 0, 0, 0, 0, 0⟩,
        ⟨0, 0, 0, 0, 0, 0, 0, 0, 0, 0, 0, 0, 0, 0, 0, 0⟩,
        ⟨0, 0, 0, 0, 0, 0, 0, 0, 0, 0, 0, 0, 0, 0, 0, 0⟩⟩ false none
        (fun i => .error (if i = 0 then "a" else if i = 1 then "b" else "c"))
      = .error ("重置机器 ID 失败: c") ∧
    ("重置机器 ID 失败: c" : String) ≠ "重置机器 ID 失败: a" :=
  ⟨rfl, rfl, by decide⟩

/-- C6 (confirmed).  `resetMachineId` starts from an empty document
when the side JSON file is absent or unparsable (the operation's
outcome never depends on that), sets the three always-present telemetry
fields — plus the macOS-only field on that platform — to the generated
identifiers, and leaves every other key of the document unchanged in
the written result. -/
theorem c6_reset_frame (r : RandomInputs) (darwin : Bool) (readDoc : Option Doc)
    (att : Nat → Except String Unit) (hw : (retryWrite att).1 = none) :
    ∃ doc : Doc, resetMachineId r darwin readDoc att = .ok (generateMachineIds r, doc) ∧
      lookupDoc doc "telemetry.machineId".data
        = some (.vstr (generateMachineIds r).machineId) ∧
      lookupDoc doc "telemetry.sqmId".data
        = some (.vstr (generateMachineIds r).sqmId) ∧
      lookupDoc doc "telemetry.devDeviceId".data
        = some (.vstr (generateMachineIds r).devDeviceId) ∧
      (darwin = true → lookupDoc doc "telemetry.macMachineId".data
        = some (.vstr (generateMachineIds r).macMachineId)) ∧
      (darwin = false → lookupDoc doc "telemetry.macMachineId".data
        = lookupDoc (readDoc.getD []) "telemetry.macMachineId".data) ∧
      ∀ k, k ≠ "telemetry.machineId".data → k ≠ "telemetry.sqmId".data →
        k ≠ "telemetry.devDeviceId".data → k ≠ "telemetry.macMachineId".data →
        lookupDoc doc k = lookupDoc (readDoc.getD []) k := by
  unfold resetMachineId
  rw [hw]
  refine ⟨_, rfl, ?_, ?_, ?_, ?_, ?_, ?_⟩
  · cases darwin
    · simp only [Bool.false_eq_true, if_false]
      rw [lookupDoc_setKey_other _ _ _ _ (by decide),
        lookupDoc_setKey_other _ _ _ _ (by decide), lookupDoc_setKey_self]
    · simp only [if_true]
      rw [lookupDoc_setKey_other _ _ _ _ (by decide),
        lookupDoc_setKey_other _ _ _ _ (by decide),
        lookupDoc_setKey_other _ _ _ _ (by decide), lookupDoc_setKey_self]
  · cases darwin
    · simp only [Bool.false_eq_true, if_false]
      rw [lookupDoc_setKey_other _ _ _ _ (by decide), lookupDoc_setKey_self]
    · simp only [if_true]
      rw [lookupDoc_setKey_other _ _ _ _ (by decide),
        lookupDoc_setKey_other _ _ _ _ (by decide), lookupDoc_setKey_self]
  · cases darwin
    · simp only [Bool.false_eq_true, if_false]
      rw [lookupDoc_setKey_self]
    · simp only [if_true]
      rw [lookupDoc_setKey_other _ _ _ _ (by decide), lookupDoc_setKey_self]
  · intro hd
    rw [hd]
    simp only [if_true]
    rw [lookupDoc_setKey_self]
  · intro hd
    rw [hd]
    simp only [Bool.false_eq_true, if_false]
    rw [lookupDoc_setKey_other _ _ _ _ (by decide),
      lookupDoc_setKey_other _ _ _ _ (by decide),
      lookupDoc_setKey_other _ _ _ _ (by decide)]
  · intro k hk1 hk2 hk3 hk4
    cases darwin
    · simp only [Bool.false_eq_true, if_false]
      rw [lookupDoc_setKey_other _ _ _ _ hk3, lookupDoc_setKey_other _ _ _ _ hk2,
        lookupDoc_setKey_other _ _ _ _ hk1]
    · simp only [if_true]
      rw [lookupDoc_setKey_other _ _ _ _ hk4, lookupDoc_setKey_other _ _ _ _ hk3,
        lookupDoc_setKey_other _ _ _ _ hk2, lookupDoc_setKey_other _ _ _ _ hk1]

/-- Witness for C6: with a host-owned key `x` in the side document and
an always-successful write, reset succeeds and `x` keeps its value. -/
theorem c6_reset_frame_witness :
    ∃ doc : Doc,
      resetMachineId ⟨[], [], ⟨0, 0, 0, 0, 0, 0, 0, 0, 0, 0, 0, 0, 0, 0, 0, 0⟩,
          ⟨0, 0, 0, 0, 0, 0, 0, 0, 0, 0, 0, 0, 0, 0, 0, 0⟩,
          ⟨0, 0, 0, 0, 0, 0, 0, 0, 0, 0, 0, 0, 0, 0, 0, 0⟩⟩ false
          (some [(['x'], .vnum 7)]) (fun _ => .ok ())
        = .ok (generateMachineIds ⟨[], [], ⟨0, 0, 0, 0, 0, 0, 0, 0, 0, 0, 0, 0, 0, 0, 0, 0⟩,
            ⟨0, 0, 0, 0, 0, 0, 0, 0, 0, 0, 0, 0, 0, 0, 0, 0⟩,
            ⟨0, 0, 0, 0, 0, 0, 0, 0, 0, 0, 0, 0, 0, 0, 0, 0⟩⟩, doc) ∧
      lookupDoc doc ['x'] = some (.vnum 7) := by
  obtain ⟨doc, h1, _, _, _, _, _, hframe⟩ :=
    c6_reset_frame ⟨[], [], ⟨0, 0, 0, 0, 0, 0, 0, 0, 0, 0, 0, 0, 0, 0, 0, 0⟩,
      ⟨0, 0, 0, 0, 0, 0, 0, 0, 0, 0, 0, 0, 0, 0, 0, 0⟩,
      ⟨0, 0, 0, 0, 0, 0, 0, 0, 0, 0, 0, 0, 0, 0, 0, 0⟩⟩ false
      (some [(['x'], .vnum 7)]) (fun _ => .ok ()) rfl
  refine ⟨doc, h1, ?_⟩
  rw [hframe ['x'] (by decide) (by decide) (by decide) (by decide)]
  rfl

theorem hexDigit_isHexLower (m : Nat) (h : m < 16) : isHexLower (hexDigit m) = true := by
  interval_cases m <;> decide

theorem hexChars_length : ∀ bs : List Nat, (hexChars bs).length = 2 * bs.length := by
  intro bs
  induction bs with
  | nil => rfl
  | cons b bs ih =>
    show (hexChars (b :: bs)).length = 2 * (bs.length + 1)
    rw [show hexChars (b :: bs)
        = hexDigit (b / 16) :: hexDigit (b % 16) :: hexChars bs from rfl]
    simp [ih]
    omega

theorem hexChars_all_hex : ∀ bs : List Nat, (∀ b ∈ bs, b < 256) →
    ∀ c ∈ hexChars bs, isHexLower c = true := by
  intro bs
  induction bs with
  | nil =>
    intro _ c hc
    cases hc
  | cons b bs ih =>
    intro hb c hc
    have hb0 : b < 256 := hb b (by simp)
    rw [show hexChars (b :: bs)
        = hexDigit (b / 16) :: hexDigit (b % 16) :: hexChars bs from rfl] at hc
    simp only [List.mem_cons] at hc
    rcases hc with hc | hc | hc
    · rw [hc]
      exact hexDigit_isHexLower _ (by omega)
    · rw [hc]
      exact hexDigit_isHexLower _ (by omega)
    · exact ih (fun x hx => hb x (by simp [hx])) c hc

theorem hexDigit_inj : ∀ a, a < 16 → ∀ b, b < 16 → hexDigit a = hexDigit b → a = b := by
  decide

theorem hexChars_inj : ∀ as bs : List Nat, (∀ a ∈ as, a < 256) → (∀ b ∈ bs, b < 256) →
    hexChars as = hexChars bs → as = bs := by
  intro as
  induction as with
  | nil =>
    intro bs _ _ h
    cases bs with
    | nil => rfl
    | cons b bs => exact absurd h (by
        rw [show hexChars (b :: bs)
          = hexDigit (b / 16) :: hexDigit (b % 16) :: hexChars bs from rfl]
        simp [hexChars])
  | cons a as ih =>
    intro bs ha hb h
    cases bs with
    | nil => exact absurd h (by
        rw [show hexChars (a :: as)
          = hexDigit (a / 16) :: hexDigit (a % 16) :: hexChars as from rfl]
        simp [hexChars])
    | cons b bs =>
      rw [show hexChars (a :: as)
          = hexDigit (a / 16) :: hexDigit (a % 16) :: hexChars as from rfl,
        show hexChars (b :: bs)
          = hexDigit (b / 16) :: hexDigit (b % 16) :: hexChars bs from rfl] at h
      simp only [List.cons.injEq] at h
      have ha0 : a < 256 := ha a (by simp)
      have hb0 : b < 256 := hb b (by simp)
      have e1 := hexDigit_inj (a / 16) (by omega) (b / 16) (by omega) h.1
      have e2 := hexDigit_inj (a % 16) (by omega) (b % 16) (by omega) h.2.1
      have hab : a = b := by omega
      rw [hab, ih bs (fun x hx => ha x (by simp [hx])) (fun x hx => hb x (by simp [hx])) h.2.2]

theorem toUpperAscii_dash : toUpperAscii '-' = '-' := by decide

theorem toUpperAscii_hex (c : Char) (h : isHexLower c = true) :
    isHexUpper (toUpperAscii c) = true := by
  have hn : (48 ≤ c.toNat ∧ c.toNat ≤ 57) ∨ (97 ≤ c.toNat ∧ c.toNat ≤ 102) := by
    simpa [isHexLower] using h
  unfold toUpperAscii
  rcases hn with hn | hn
  · rw [if_neg (by omega)]
    simp [isHexUpper]
    omega
  · rw [if_pos (by omega)]
    simp [isHexUpper, char_toNat_ofNat_valid (c.toNat - 32) (Or.inl (by omega))]
    omega

theorem uuidFrom_form (u : UuidBytes) (hu : uuidBytesOk u) : UuidForm (uuidFrom u) := by
  obtain ⟨h0, h1, h2, h3, h4, h5, h6, h7, h8, h9, h10, h11, h12, h13, h14, h15⟩ := hu
  refine ⟨hexChars [u.b0, u.b1, u.b2, u.b3], hexChars [u.b4, u.b5],
    hexChars [64 + u.b6 % 16, u.b7], hexChars [128 + u.b8 % 64, u.b9],
    hexChars [u.b10, u.b11, u.b12, u.b13, u.b14, u.b15], rfl,
    rfl, rfl, rfl, rfl, rfl, ?_⟩
  intro c hc
  simp only [List.append_assoc, List.mem_append] at hc
  rcases hc with hc | hc | hc | hc | hc
  · exact hexChars_all_hex _ (by intro x hx; simp at hx; omega) c hc
  · exact hexChars_all_hex _ (by intro x hx; simp at hx; omega) c hc
  · exact hexChars_all_hex _ (by intro x hx; simp at hx; omega) c hc
  · exact hexChars_all_hex _ (by intro x hx; simp at hx; omega) c hc
  · exact hexChars_all_hex _ (by intro x hx; simp at hx; omega) c hc

theorem uuidFrom_upper_form (u : UuidBytes) (hu : uuidBytesOk u) :
    UuidFormUpper ((uuidFrom u).map toUpperAscii) := by
  obtain ⟨g1, g2, g3, g4, g5, hsplit, l1, l2, l3, l4, l5, hhex⟩ := uuidFrom_form u hu
  refine ⟨g1.map toUpperAscii, g2.map toUpperAscii, g3.map toUpperAscii,
    g4.map toUpperAscii, g5.map toUpperAscii, ?_, ?_, ?_, ?_, ?_, ?_, ?_⟩
  · rw [hsplit]
    simp [toUpperAscii_dash]
  · simp [l1]
  · simp [l2]
  · simp [l3]
  · simp [l4]
  · simp [l5]
  · intro c hc
    simp only [List.append_assoc, List.mem_append, List.mem_map] at hc
    have hstep : ∀ c2 : Char, (c2 ∈ g1 ∨ c2 ∈ g2 ∨ c2 ∈ g3 ∨ c2 ∈ g4 ∨ c2 ∈ g5) →
        toUpperAscii c2 = c → isHexUpper c = true := by
      intro c2 hm he
      rw [← he]
      apply toUpperAscii_hex
      apply hhex
      simp only [List.append_assoc, List.mem_append]
      exact hm
    rcases hc with ⟨c2, hm, he⟩ | ⟨c2, hm, he⟩ | ⟨c2, hm, he⟩ | ⟨c2, hm, he⟩ | ⟨c2, hm, he⟩
    · exact hstep c2 (.inl hm) he
    · exact hstep c2 (.inr (.inl hm)) he
    · exact hstep c2 (.inr (.inr (.inl hm))) he
    · exact hstep c2 (.inr (.inr (.inr (.inl hm)))) he
    · exact hstep c2 (.inr (.inr (.inr (.inr hm)))) he

/-- C8 (confirmed).  Every `MachineIdentitySet` produced by
`generateMachineIds` (over digests and UUID bytes of the stated sizes,
as the crypto sources deliver) has a 256-bit digest of exactly 64
lowercase hex characters, a 512-bit digest of exactly 128, a brace
identifier of the form `{` + uppercase UUID + `}`, and two plain
UUID-form identifiers; and two calls whose fresh digests differ — as a
cryptographic random source ensures — yield different 256-bit
digests. -/
theorem c8_generate_shape (r r2 : RandomInputs)
    (h256 : r.d256.length = 32) (hb256 : ∀ b ∈ r.d256, b < 256)
    (h512 : r.d512.length = 64) (hb512 : ∀ b ∈ r.d512, b < 256)
    (hu1 : uuidBytesOk r.u1) (hu2 : uuidBytesOk r.u2) (hu3 : uuidBytesOk r.u3)
    (hb256b : ∀ b ∈ r2.d256, b < 256) (hdiff : r.d256 ≠ r2.d256) :
    ((generateMachineIds r).machineId.length = 64 ∧
      ∀ c ∈ (generateMachineIds r).machineId, isHexLower c = true) ∧
    ((generateMachineIds r).macMachineId.length = 128 ∧
      ∀ c ∈ (generateMachineIds r).macMachineId, isHexLower c = true) ∧
    (∃ uu, (generateMachineIds r).sqmId = '\x7b' :: (uu ++ ['\x7d']) ∧ UuidFormUpper uu) ∧
    UuidForm (generateMachineIds r).devDeviceId ∧
    UuidForm (generateMachineIds r).serviceMachineId ∧
    (generateMachineIds r).machineId ≠ (generateMachineIds r2).machineId := by
  refine ⟨⟨?_, ?_⟩, ⟨?_, ?_⟩, ?_, ?_, ?_, ?_⟩
  · show (hexChars r.d256).length = 64
    rw [hexChars_length, h256]
  · exact hexChars_all_hex r.d256 hb256
  · show (hexChars r.d512).length = 128
    rw [hexChars_length, h512]
  · exact hexChars_all_hex r.d512 hb512
  · exact ⟨(uuidFrom r.u1).map toUpperAscii, rfl, uuidFrom_upper_form r.u1 hu1⟩
  · exact uuidFrom_form r.u2 hu2
  · exact uuidFrom_form r.u3 hu3
  · intro he
    exact hdiff (hexChars_inj r.d256 r2.d256 hb256 hb256b he)

/-- Witness for C8 on concrete random inputs: the 256-bit digest text
has 64 characters and two different digests give different ids. -/
theorem c8_generate_shape_witness :
    (generateMachineIds ⟨List.replicate 32 0, List.replicate 64 0,
        ⟨0, 0, 0, 0, 0, 0, 0, 0, 0, 0, 0, 0, 0, 0, 0, 0⟩,
        ⟨0, 0, 0, 0, 0, 0, 0, 0, 0, 0, 0, 0, 0, 0, 0, 0⟩,
        ⟨0, 0, 0, 0, 0, 0, 0, 0, 0, 0, 0, 0, 0, 0, 0, 0⟩⟩).machineId.length = 64 ∧
    (generateMachineIds ⟨List.replicate 32 0, List.replicate 64 0,
        ⟨0, 0, 0, 0, 0, 0, 0, 0, 0, 0, 0, 0, 0, 0, 0, 0⟩,
        ⟨0, 0, 0, 0, 0, 0, 0, 0, 0, 0, 0, 0, 0, 0, 0, 0⟩,
        ⟨0, 0, 0, 0, 0, 0, 0, 0, 0, 0, 0, 0, 0, 0, 0, 0⟩⟩).machineId
      ≠ (generateMachineIds ⟨List.replicate 32 1, List.replicate 64 0,
        ⟨0, 0, 0, 0, 0, 0, 0, 0, 0, 0, 0, 0, 0, 0, 0, 0⟩,
        ⟨0, 0, 0, 0, 0, 0, 0, 0, 0, 0, 0, 0, 0, 0, 0, 0⟩,
        ⟨0, 0, 0, 0, 0, 0, 0, 0, 0, 0, 0, 0, 0, 0, 0, 0⟩⟩).machineId := by
  have h := c8_generate_shape
    ⟨List.replicate 32 0, List.replicate 64 0,
      ⟨0, 0, 0, 0, 0, 0, 0, 0, 0, 0, 0, 0, 0, 0, 0, 0⟩,
      ⟨0, 0, 0, 0, 0, 0, 0, 0, 0, 0, 0, 0, 0, 0, 0, 0⟩,
      ⟨0, 0, 0, 0, 0, 0, 0, 0, 0, 0, 0, 0, 0, 0, 0, 0⟩⟩
    ⟨List.replicate 32 1, List.replicate 64 0,
      ⟨0, 0, 0, 0, 0, 0, 0, 0, 0, 0, 0, 0, 0, 0, 0, 0⟩,
      ⟨0, 0, 0, 0, 0, 0, 0, 0, 0, 0, 0, 0, 0, 0, 0, 0⟩,
      ⟨0, 0, 0, 0, 0, 0, 0, 0, 0, 0, 0, 0, 0, 0, 0, 0⟩⟩
    (by decide) (by decide) (by decide) (by decide) (by decide) (by decide) (by decide)
    (by decide) (by decide)
  exact ⟨h.1.1, h.2.2.2.2.2⟩

end WindsurfSwitch
